import Mathlib

/-!
Verification of the Operation Backup & Restore Engine of neutrons-optimizer.

The engine (src/core/safety/backup.py, src/core/safety/restore.py together
with the registry/service primitives in src/core/system) is shallowly
embedded: JSON documents become the inductive `JVal`, the live operating
system becomes the explicit record `SysState`, and the behaviour of the
fallible OS primitives (reg.exe, net.exe, powercfg, file copies, ledger
writes) is supplied by an `Env` of outcome functions, so every modelled
function is a pure, executable state transformer.  Functions whose Python
bodies are wrapped in a broad `try/except` are total; the ones that can
leak an exception return `Except`.
-/

set_option autoImplicit false

namespace Neutrons

/-- A JSON-like value as stored in the `*_info.json` ledger documents
(strings, arrays, and objects; the shapes the engine actually writes). -/
inductive JVal where
  | s (v : String)
  | list (l : List JVal)
  | obj (m : List (String × JVal))

/-- Association-list lookup (first binding wins, like a Python dict). -/
def aget {κ α : Type} [DecidableEq κ] : List (κ × α) → κ → Option α
  | [], _ => none
  | (k, v) :: rest, key => if k = key then some v else aget rest key

/-- Association-list update: replace the existing binding in place, or
append a new binding at the end (Python dict insertion semantics). -/
def aset {κ α : Type} [DecidableEq κ] : List (κ × α) → κ → α → List (κ × α)
  | [], key, val => [(key, val)]
  | (k, v) :: rest, key, val =>
    if k = key then (k, val) :: rest else (k, v) :: aset rest key val

/-- Python truthiness of a JSON value (`if backup_info.get(sec):`). -/
def truthy : JVal → Bool
  | .s v => v != ""
  | .list l => !l.isEmpty
  | .obj m => !m.isEmpty

/-- Truthiness of `dict.get`, whose default is `None` (falsy). -/
def otruthy : Option JVal → Bool
  | none => false
  | some v => truthy v

/-- Iterating a Python value: a list yields its elements, a string its
characters, a dict its keys.  (Those are the only shapes in `JVal`.) -/
def jitems : JVal → List JVal
  | .s v => v.data.map (fun c => JVal.s (String.singleton c))
  | .list l => l
  | .obj m => m.map (fun p => JVal.s p.1)

/-- Contents of one file in the modelled file system: plain bytes, a
`reg export` snapshot of one key, or a deflate zip of a directory tree
(relative entry names to archived contents). -/
inductive FileData where
  | bytes (content : String)
  | regBlob (key : String × String) (vals : List (String × String))
  | zipBlob (entries : List (String × FileData))

/-- Run states of a Windows service (`ServiceState` in services.py). -/
inductive ServiceState where
  | RUNNING
  | STOPPED
  | PAUSED
  | UNKNOWN
deriving DecidableEq

/-- `ServiceState.value`: the string stored in backup documents. -/
def ServiceState.value : ServiceState → String
  | .RUNNING => "RUNNING"
  | .STOPPED => "STOPPED"
  | .PAUSED => "PAUSED"
  | .UNKNOWN => "UNKNOWN"

/-- The live operating-system state the engine captures and restores:
files (paths to contents), the registry (hive-name/subkey to a value
map), service run states, and the active power-plan GUID. -/
structure SysState where
  files : List (String × FileData)
  reg : List ((String × String) × List (String × String))
  services : List (String × ServiceState)
  power_plan : String

/-- Deterministic outcomes of the fallible OS primitives the engine
shells out to.  Each field answers, for given arguments, whether that
call succeeds; `power_query` also returns the stdout of the WMI active
power-plan query as a function of the active plan GUID. -/
structure Env where
  reg_export_ok : String → String → Bool
  reg_import_ok : String → Bool
  reg_set_ok : String → String → String → Bool
  copy_ok : String → String → Bool
  zip_ok : String → Bool
  unzip_ok : String → Bool
  ledger_write_ok : String → Bool
  net_start_ok : String → Bool
  net_stop_ok : String → Bool
  powercfg_ok : String → Bool
  power_query : String → Bool × String
  svc_info : String → List (String × JVal)
  unlink_ok : String → Bool

/-- Backup root of `RegistryManager.backup_dir`. -/
def reg_backup_dir : String :=
  "C:\\Users\\user\\AppData\\Local\\NeutronsOptimizer\\backups\\registry\\"

/-- File-backup directory of `BackupManager.file_backups`. -/
def file_backup_dir : String :=
  "C:\\Users\\user\\AppData\\Local\\NeutronsOptimizer\\backups\\files\\"

/-- Backup-root directory holding the `*_info.json` ledger documents. -/
def backup_root_dir : String :=
  "C:\\Users\\user\\AppData\\Local\\NeutronsOptimizer\\backups\\"

/-- `subkey.replace("\\", "_").replace("/", "_")` in `backup_key`. -/
def safe_subkey (s : String) : String :=
  (s.replace "\\" "_").replace "/" "_"

/-- `str(source).replace(":", "_").replace("\\", "_").replace("/", "_")`
used by `backup_file` and `backup_directory` for blob names. -/
def safe_name (s : String) : String :=
  ((s.replace ":" "_").replace "\\" "_").replace "/" "_"

/-- `RegistryManager.backup_key`: `reg export` the key to a timestamped
`.reg` blob.  Fails (returns `none`, writes nothing) when the key does
not exist or the export tool reports an error; never raises (its body is
fully wrapped in `try/except`). -/
def backup_key (env : Env) (t : String) (st : SysState) (hive subkey : String) :
    Option String × SysState :=
  match aget st.reg (hive, subkey) with
  | none => (none, st)
  | some vals =>
    if env.reg_export_ok hive subkey then
      let p := reg_backup_dir ++ hive ++ "_" ++ safe_subkey subkey ++ "_" ++ t ++ ".reg"
      (some p, { st with files := aset st.files p (FileData.regBlob (hive, subkey) vals) })
    else (none, st)

/-- `reg import` of an exported key: merge the recorded values into the
key (creating it if absent), leaving values not in the blob untouched. -/
def reg_import (r : List ((String × String) × List (String × String)))
    (key : String × String) (vals : List (String × String)) :
    List ((String × String) × List (String × String)) :=
  aset r key (vals.foldl (fun acc kv => aset acc kv.1 kv.2) ((aget r key).getD []))

/-- `RegistryManager.restore_from_backup`: import a `.reg` blob back into
the registry.  False if the blob is missing, is not a registry export, or
the import tool fails; never raises. -/
def restore_from_backup (env : Env) (st : SysState) (path : String) : Bool × SysState :=
  match aget st.files path with
  | some (FileData.regBlob key vals) =>
    if env.reg_import_ok path then
      (true, { st with reg := reg_import st.reg key vals })
    else (false, st)
  | some _ => (false, st)
  | none => (false, st)

/-- Set one value under a key, creating the key when absent
(`winreg.CreateKey` + `winreg.SetValueEx`). -/
def reg_set (r : List ((String × String) × List (String × String)))
    (key : String × String) (name val : String) :
    List ((String × String) × List (String × String)) :=
  aset r key (aset ((aget r key).getD []) name val)

/-- The rollback in `write_value`'s `except` branch: re-import the
pre-write backup when one was taken, then report failure. -/
def write_rollback (env : Env) (st : SysState) (bak : Option String) : Bool × SysState :=
  match bak with
  | some p => (false, (restore_from_backup env st p).2)
  | none => (false, st)

/-- `RegistryManager.write_value` as invoked by the startup-item restore:
first `backup_key` (never raises; may leave a blob file), then
`CreateKey`/`SetValueEx`.  Non-string subkey, name or value makes the
winreg call raise, which the broad `except` turns into a rollback and
`False`.  Never raises to the caller. -/
def write_value (env : Env) (t : String) (st : SysState) (hive : String)
    (sub name val : JVal) : Bool × SysState :=
  match sub with
  | .s subs =>
    let r := backup_key env t st hive subs
    match name, val with
    | .s names, .s vals =>
      if env.reg_set_ok hive subs names then
        (true, { r.2 with reg := reg_set r.2.reg (hive, subs) names vals })
      else write_rollback env r.2 r.1
    | _, _ => write_rollback env r.2 r.1
  | _ => (false, st)

/-- `ServiceManager.get_service_status`: `UNKNOWN` for a service the
query tool does not know; never raises. -/
def get_service_status (st : SysState) (name : String) : ServiceState :=
  (aget st.services name).getD ServiceState.UNKNOWN

/-- `ServiceManager.start_service`: no-op success when already running,
otherwise `net start`; never raises. -/
def start_service (env : Env) (st : SysState) (name : String) : Bool × SysState :=
  if get_service_status st name = ServiceState.RUNNING then (true, st)
  else if env.net_start_ok name then
    (true, { st with services := aset st.services name ServiceState.RUNNING })
  else (false, st)

/-- `ServiceManager.stop_service`: no-op success when already stopped,
otherwise `net stop`; never raises. -/
def stop_service (env : Env) (st : SysState) (name : String) : Bool × SysState :=
  if get_service_status st name = ServiceState.STOPPED then (true, st)
  else if env.net_stop_ok name then
    (true, { st with services := aset st.services name ServiceState.STOPPED })
  else (false, st)

/-- GUID `powercfg -setactive` target for Ultimate Performance. -/
def ultimate_guid : String := "e9a42b02-d5df-448d-aa00-03f14749eb61"

/-- GUID `powercfg -setactive` target for the High Performance fallback. -/
def high_perf_guid : String := "8c5e7fda-e8bf-4a96-9a85-a6e23a8c635c"

/-- Python `needle in haystack` on strings. -/
def hasSubstr (haystack needle : String) : Bool :=
  (haystack.splitOn needle).length != 1

/-- One persisted ledger document (`{backup_id}_info.json` as a dict). -/
abbrev JObj := List (String × JVal)

/-- The Backup Ledger: one JSON document per `backup_id`. -/
abbrev Ledger := List (String × JObj)

/-- The engine's durable plus live state: the ledger directory and the
operating system it snapshots. -/
structure EngineSt where
  ledger : Ledger
  sys : SysState

/-- The unkeyed branch of `_update_backup_info`: append to a list-valued
section, start a fresh singleton list for an absent section, and replace
a non-list section with the data outright. -/
def update_unkeyed (info : JObj) (sec : String) (data : JVal) : JObj :=
  match aget info sec with
  | none => aset info sec (JVal.list [data])
  | some (JVal.list l) => aset info sec (JVal.list (l ++ [data]))
  | some _ => aset info sec data

/-- The in-memory document edit of `_update_backup_info`.  A non-empty
`key` upserts into a dict-valued section (`backup_info[section][key] =
data`); indexing a non-dict section with a string key raises `TypeError`,
which the broad `except` swallows before the document is re-written, so
the document is left unchanged.  An empty-string key is falsy in Python
and takes the unkeyed branch. -/
def update_section (info : JObj) (sec : String) (data : JVal) (key : Option String) : JObj :=
  match key with
  | none => update_unkeyed info sec data
  | some k =>
    if k = "" then update_unkeyed info sec data
    else
      match aget info sec with
      | none => aset info sec (JVal.obj [(k, data)])
      | some (JVal.obj m) => aset info sec (JVal.obj (aset m k data))
      | some _ => info

/-- `BackupManager._update_backup_info`: read-modify-write of the ledger
document (an absent document starts empty).  A failing write of the
document is caught and logged, leaving the ledger unchanged; the caller
is not told. -/
def update_backup_info (env : Env) (L : Ledger) (bid : String) (sec : String)
    (data : JVal) (key : Option String) : Ledger :=
  let doc := (aget L bid).getD []
  let doc1 := update_section doc sec data key
  if env.ledger_write_ok bid then aset L bid doc1 else L

/-- `BackupManager.get_backup_info`: load the document, `None` if absent. -/
def get_backup_info (L : Ledger) (bid : String) : Option JObj :=
  aget L bid

/-- `BackupManager.create_operation_backup`: derive the `backup_id` from
the operation name and timestamp and persist the initial document with
all sections empty.  This method has no `try/except`: a failing ledger
write propagates the exception to the caller. -/
def create_operation_backup (env : Env) (t : String) (L : Ledger) (operation_name : String) :
    Except Unit String × Ledger :=
  let bid := operation_name ++ "_" ++ t
  let doc : JObj :=
    [("operation", JVal.s operation_name), ("timestamp", JVal.s t),
     ("backup_id", JVal.s bid),
     ("registry_backups", JVal.list []), ("file_backups", JVal.list []),
     ("service_states", JVal.obj []), ("power_settings", JVal.obj []),
     ("startup_items", JVal.list [])]
  if env.ledger_write_ok bid then (Except.ok bid, aset L bid doc) else (Except.error (), L)

/-- `BackupManager.backup_registry_key`: export the key via `backup_key`;
on success append the snapshot entry under `registry_backups` and return
true, otherwise return false.  Its body has nothing left to raise
(`backup_key` and `_update_backup_info` both swallow their own errors),
so the surrounding `try/except` never fires. -/
def backup_registry_key (env : Env) (t : String) (es : EngineSt) (bid : String)
    (hive subkey desc : String) : Except Unit Bool × EngineSt :=
  let r := backup_key env t es.sys hive subkey
  match r.1 with
  | some p =>
    let entry := JVal.obj
      [("hkey", JVal.s hive), ("subkey", JVal.s subkey),
       ("backup_path", JVal.s p), ("description", JVal.s desc)]
    (Except.ok true,
     { ledger := update_backup_info env es.ledger bid "registry_backups" entry none,
       sys := r.2 })
  | none => (Except.ok false, { es with sys := r.2 })

/-- A stored path lies under directory `dir` when `dir\` is a string
prefix of it (character-wise, the test `rglob` traversal amounts to). -/
def under_dir (dir path : String) : Bool :=
  (dir ++ "\\").data.isPrefixOf path.data

/-- The files living inside directory `p`, with names relative to `p`
(`source.rglob('*')` + `relative_to`). -/
def dir_entries (files : List (String × FileData)) (p : String) : List (String × FileData) :=
  files.filterMap fun kv =>
    if under_dir p kv.1 then some (kv.1.drop (p.length + 1), kv.2) else none

/-- Python `Path.exists()`: true when a plain file sits at the path or
the path is a (non-empty) directory. -/
def path_exists (files : List (String × FileData)) (p : String) : Bool :=
  (aget files p).isSome || !(dir_entries files p).isEmpty

/-- The `try` body of `BackupManager.backup_file`: a missing source
(`Path.exists()` false — neither a plain file nor a directory at the
path) is not an error: success with nothing recorded.  When the path
exists, `shutil.copy2` runs: on a plain file it copies the bytes to a
collision-safe blob name and the entry is appended under
`file_backups`; on a directory (`exists()` is true there too) `copy2`
raises, as it does on a failing copy — both raise out of this body. -/
def backup_file_try (env : Env) (es : EngineSt) (bid : String) (path desc : String) :
    Except Unit Bool × EngineSt :=
  if !path_exists es.sys.files path then (Except.ok true, es)
  else
    match aget es.sys.files path with
    | some content =>
      let dst := file_backup_dir ++ bid ++ "_" ++ safe_name path
      if env.copy_ok path dst then
        let entry := JVal.obj
          [("original_path", JVal.s path), ("backup_path", JVal.s dst),
           ("description", JVal.s desc)]
        (Except.ok true,
         { ledger := update_backup_info env es.ledger bid "file_backups" entry none,
           sys := { es.sys with files := aset es.sys.files dst content } })
      else (Except.error (), es)
    | none => (Except.error (), es)

/-- `BackupManager.backup_file`: the `try` body under the broad `except`
that converts a raised copy error into `False`. -/
def backup_file (env : Env) (es : EngineSt) (bid : String) (path desc : String) :
    Except Unit Bool × EngineSt :=
  match backup_file_try env es bid path desc with
  | (Except.ok b, es1) => (Except.ok b, es1)
  | (Except.error _, es1) => (Except.ok false, es1)

/-- The `try` body of `BackupManager.backup_directory`: a missing
directory is not an error (success, nothing recorded); otherwise archive
the whole tree into one deflate zip blob and append a `directory_zip`
entry under `file_backups`.  A failing zip write raises out of this body
(per-file add errors inside the zip loop are caught and skipped).  A
plain file at the path also passes the `exists()` check; pathlib's
`rglob` guards with `is_dir()` and yields nothing for a non-directory,
so that case writes an empty archive and still succeeds. -/
def backup_directory_try (env : Env) (es : EngineSt) (bid : String) (path desc : String) :
    Except Unit Bool × EngineSt :=
  if !path_exists es.sys.files path then (Except.ok true, es)
  else
    let dst := file_backup_dir ++ bid ++ "_" ++ safe_name path ++ ".zip"
    if env.zip_ok dst then
      let entry := JVal.obj
        [("original_path", JVal.s path), ("backup_path", JVal.s dst),
         ("type", JVal.s "directory_zip"), ("description", JVal.s desc)]
      (Except.ok true,
       { ledger := update_backup_info env es.ledger bid "file_backups" entry none,
         sys := { es.sys with
                  files := aset es.sys.files dst
                    (FileData.zipBlob (dir_entries es.sys.files path)) } })
    else (Except.error (), es)

/-- `BackupManager.backup_directory`: the `try` body under the broad
`except` that converts a raised archive error into `False`. -/
def backup_directory (env : Env) (es : EngineSt) (bid : String) (path desc : String) :
    Except Unit Bool × EngineSt :=
  match backup_directory_try env es bid path desc with
  | (Except.ok b, es1) => (Except.ok b, es1)
  | (Except.error _, es1) => (Except.ok false, es1)

/-- `BackupManager.backup_service_state`: record the current run state
and the queried configuration (with `STATUS` upserted) under the
service's name.  The status and info queries catch their own errors, so
the body never raises. -/
def backup_service_state (env : Env) (es : EngineSt) (bid : String) (service_name : String) :
    Except Unit Bool × EngineSt :=
  let stt := get_service_status es.sys service_name
  let info := aset (env.svc_info service_name) "STATUS" (JVal.s stt.value)
  let entry := JVal.obj
    [("name", JVal.s service_name), ("state", JVal.s stt.value), ("info", JVal.obj info)]
  (Except.ok true,
   { es with
     ledger := update_backup_info env es.ledger bid "service_states" entry
       (some service_name) })

/-- `BackupManager.backup_power_plan`: store the stdout of the active
power-plan query under `power_settings`; false when the query fails.
`run_powershell` returns a result object instead of raising, so the body
never raises. -/
def backup_power_plan (env : Env) (t : String) (es : EngineSt) (bid : String) :
    Except Unit Bool × EngineSt :=
  let q := env.power_query es.sys.power_plan
  if q.1 then
    let entry := JVal.obj [("output", JVal.s q.2), ("timestamp", JVal.s t)]
    (Except.ok true,
     { es with ledger := update_backup_info env es.ledger bid "power_settings" entry none })
  else (Except.ok false, es)

/-- The `Run`/`RunOnce` auto-start registry locations enumerated by
`backup_startup_items`. -/
def startup_locations : List (String × String) :=
  [("HKCU", "Software\\Microsoft\\Windows\\CurrentVersion\\Run"),
   ("HKLM", "Software\\Microsoft\\Windows\\CurrentVersion\\Run"),
   ("HKCU", "Software\\Microsoft\\Windows\\CurrentVersion\\RunOnce"),
   ("HKLM", "Software\\Microsoft\\Windows\\CurrentVersion\\RunOnce")]

/-- `RegistryManager.enumerate_values`: the value map of a key, empty
when the key is absent (the error is caught). -/
def enumerate_values (st : SysState) (hive subkey : String) : List (String × String) :=
  (aget st.reg (hive, subkey)).getD []

/-- `BackupManager.backup_startup_items`: enumerate the four auto-start
locations into flat item records and hand the whole Python list as the
`data` argument of `_update_backup_info` (which appends it to the
`startup_items` section as a single element).  Every enumeration error is
caught per location, so the body never raises. -/
def backup_startup_items (env : Env) (es : EngineSt) (bid : String) :
    Except Unit Bool × EngineSt :=
  let items := startup_locations.flatMap fun loc =>
    (enumerate_values es.sys loc.1 loc.2).map fun nv =>
      JVal.obj
        [("hkey", JVal.s loc.1), ("subkey", JVal.s loc.2),
         ("name", JVal.s nv.1), ("value", JVal.s nv.2), ("type", JVal.s "registry")]
  (Except.ok true,
   { es with
     ledger := update_backup_info env es.ledger bid "startup_items"
       (JVal.list items) none })

/-- `BackupManager.cleanup_old_backups` over the backup root seen as a
flat list of (path, mtime) files, in `rglob` order: delete every file
whose mtime is below the cutoff; a failing delete aborts the sweep (the
exception is caught) and the count so far is returned. -/
def cleanup_old_backups (env : Env) (cutoff : Nat) :
    List (String × Nat) → Nat × List (String × Nat)
  | [] => (0, [])
  | f :: rest =>
    if f.2 < cutoff then
      if env.unlink_ok f.1 then
        let r := cleanup_old_backups env cutoff rest
        (r.1 + 1, r.2)
      else (0, f :: rest)
    else
      let r := cleanup_old_backups env cutoff rest
      (r.1, f :: r.2)

/-- The `backup_path` a snapshot entry references, when it has one. -/
def entry_blob : JVal → Option String
  | JVal.obj m =>
    match aget m "backup_path" with
    | some (JVal.s p) => some p
    | _ => none
  | _ => none

/-- The blob paths a ledger document's section references through its
entries' `backup_path` fields (what the restore side will read). -/
def section_blob_paths (doc : JObj) (sec : String) : List String :=
  (jitems ((aget doc sec).getD (JVal.list []))).filterMap entry_blob

/-- All blob paths referenced by a ledger document. -/
def referenced_blob_paths (doc : JObj) : List String :=
  section_blob_paths doc "registry_backups" ++ section_blob_paths doc "file_backups"

/-- `RestoreManager._restore_registry_backup`: false when the entry is
malformed or the blob path is falsy or missing, otherwise `reg import`
the blob.  Never raises (own `try/except`). -/
def restore_registry_backup (env : Env) (st : SysState) (e : JVal) : Bool × SysState :=
  match e with
  | JVal.obj m =>
    match aget m "backup_path" with
    | some (JVal.s p) => if p = "" then (false, st) else restore_from_backup env st p
    | _ => (false, st)
  | _ => (false, st)

/-- `RestoreManager._restore_single_file`: recreate parent directories
(no effect on the file map) and copy the blob back over the original
path.  Never raises. -/
def restore_single_file (env : Env) (st : SysState) (orig bak : String) : Bool × SysState :=
  match aget st.files bak with
  | some content =>
    if env.copy_ok bak orig then (true, { st with files := aset st.files orig content })
    else (false, st)
  | none => (false, st)

/-- `RestoreManager._restore_directory_from_zip`: remove the directory's
current contents (`rmtree`, errors ignored), then re-extract the archive.
A plain file sitting at the directory path survives `rmtree` and makes
`mkdir` raise, which is caught: failure with no change.  The zip is
opened only after the removal, so a corrupt or vanished archive leaves
the directory emptied.  Never raises. -/
def restore_directory_from_zip (env : Env) (st : SysState) (orig zipPath : String) :
    Bool × SysState :=
  if (aget st.files orig).isSome then (false, st)
  else
    let st1 := { st with files := st.files.filter fun kv => ! under_dir orig kv.1 }
    match aget st1.files zipPath with
    | some (FileData.zipBlob entries) =>
      if env.unzip_ok zipPath then
        (true, { st1 with
                 files := entries.foldl (fun acc e => aset acc (orig ++ "\\" ++ e.1) e.2)
                   st1.files })
      else (false, st1)
    | some _ => (false, st1)
    | none => (false, st1)

/-- `backup_type = file_backup.get('type', 'file')` compared against
`'directory_zip'` (a non-string compares unequal without raising). -/
def entry_is_dir (m : JObj) : Bool :=
  match aget m "type" with
  | some (JVal.s ty) => ty = "directory_zip"
  | _ => false

/-- `RestoreManager._restore_file_backup`: dispatch on the recorded
`type` (default `file`) after checking the blob path; a malformed
original path makes the helper raise, caught as failure.  Never raises. -/
def restore_file_backup (env : Env) (st : SysState) (e : JVal) : Bool × SysState :=
  match e with
  | JVal.obj m =>
    match aget m "backup_path" with
    | some (JVal.s p) =>
      if p = "" then (false, st)
      else if (aget st.files p).isNone then (false, st)
      else
        match aget m "original_path" with
        | some (JVal.s o) =>
          if entry_is_dir m then restore_directory_from_zip env st o p
          else restore_single_file env st o p
        | _ => (false, st)
    | _ => (false, st)
  | _ => (false, st)

/-- `RestoreManager._restore_service_state`: drive the service to the
recorded state string; any state other than `RUNNING`/`STOPPED`
(`PAUSED`, `UNKNOWN`, a missing field, or a non-string) is logged and
treated as success with no action.  Never raises. -/
def restore_service_state (env : Env) (st : SysState) (service_name : String)
    (service_data : JVal) : Bool × SysState :=
  match service_data with
  | JVal.obj m =>
    match aget m "state" with
    | some (JVal.s v) =>
      if v = "RUNNING" then start_service env st service_name
      else if v = "STOPPED" then stop_service env st service_name
      else (true, st)
    | some _ => (true, st)
    | none => (true, st)
  | _ => (false, st)

/-- Python `'Ultimate Performance' in output` on the captured output:
substring test on a string, element equality on a list, key equality on
a dict — never raising for JSON-decoded values; the absent-key default
is the empty string (no match). -/
def mentions_ultimate : Option JVal → Bool
  | some (JVal.s v) => hasSubstr v "Ultimate Performance"
  | some (JVal.list l) =>
    l.any fun e =>
      match e with
      | JVal.s v => v == "Ultimate Performance"
      | _ => false
  | some (JVal.obj m) => m.any fun kv => kv.1 == "Ultimate Performance"
  | none => false

/-- `RestoreManager._restore_power_plan`: if the captured query output
mentions Ultimate Performance, try to reactivate that plan; fall back to
High Performance; false only when both attempts fail.  Never raises. -/
def restore_power_plan (env : Env) (st : SysState) (ps : JVal) : Bool × SysState :=
  match ps with
  | JVal.obj m =>
    if mentions_ultimate (aget m "output") && env.powercfg_ok ultimate_guid then
      (true, { st with power_plan := ultimate_guid })
    else if env.powercfg_ok high_perf_guid then
      (true, { st with power_plan := high_perf_guid })
    else (false, st)
  | _ => (false, st)

/-- Registry hive names `_restore_startup_items` can map back to a
handle (`hkey_map`); an unknown name maps to `None`, which is falsy. -/
def hkey_known (h : String) : Bool :=
  h == "HKLM" || h == "HKCU" || h == "HKCR" || h == "HKU" || h == "HKCC"

/-- One iteration of the `_restore_startup_items` loop: true exactly when
`success_count` is incremented.  A non-dict item raises on `.get`
(caught, skipped); an unhashable `hkey` value raises in `hkey_map.get`
(caught, skipped); an unknown hive or a falsy field silently skips; an
eligible item is re-written with `registry.write_value`. -/
def startup_item_step (env : Env) (t : String) (st : SysState) (item : JVal) :
    Bool × SysState :=
  match item with
  | JVal.obj m =>
    match aget m "type" with
    | some (JVal.s ty) =>
      if ty = "registry" then
        match aget m "hkey" with
        | some (JVal.s h) =>
          if hkey_known h && otruthy (aget m "subkey") && otruthy (aget m "name")
              && otruthy (aget m "value") then
            write_value env t st h ((aget m "subkey").getD (JVal.s ""))
              ((aget m "name").getD (JVal.s "")) ((aget m "value").getD (JVal.s ""))
          else (false, st)
        | some _ => (false, st)
        | none => (false, st)
      else (false, st)
    | _ => (false, st)
  | _ => (false, st)

/-- `RestoreManager._restore_startup_items` on the stored section value:
iterate the items, counting successful re-writes, and report success when
at least one item was restored or there were no items at all.  Never
raises. -/
def restore_startup_items (env : Env) (t : String) (st : SysState) (v : JVal) :
    Bool × SysState :=
  let items := jitems v
  let r := items.foldl
    (fun (acc : Nat × SysState) it =>
      let s := startup_item_step env t acc.2 it
      (acc.1 + (if s.1 then 1 else 0), s.2))
    (0, st)
  (decide (0 < r.1) || items.isEmpty, r.2)

/-- One section loop of `restore_operation`: run the per-entry restore on
every entry (never stopping early), clearing the running success flag on
each failure. -/
def restore_fold (f : SysState → JVal → Bool × SysState) :
    SysState → List JVal → Bool → Bool × SysState
  | st, [], succ => (succ, st)
  | st, e :: rest, succ =>
    let r := f st e
    restore_fold f r.2 rest (succ && r.1)

/-- The service-state section of `restore_operation`: iterating
`.items()` of the stored section raises when the section is truthy but
not a dict — that exception escapes to `restore_operation`'s broad
handler. -/
def restore_services_section (env : Env) (info : JObj) (acc : Bool × SysState) :
    Except Unit (Bool × SysState) :=
  match aget info "service_states" with
  | none => Except.ok acc
  | some sv =>
    if truthy sv then
      match sv with
      | JVal.obj m =>
        Except.ok (m.foldl
          (fun (a : Bool × SysState) p =>
            let s := restore_service_state env a.2 p.1 p.2
            (a.1 && s.1, s.2))
          acc)
      | _ => Except.error ()
    else Except.ok acc

/-- The `try` body of `RestoreManager.restore_operation`: load the
document (falsy — absent or empty — fails with no action), then replay
each truthy section in the fixed order registry → files → services →
power plan → startup items, tracking one overall success flag. -/
def restore_operation_try (env : Env) (t : String) (L : Ledger) (st : SysState)
    (bid : String) : Except Unit Bool × SysState :=
  match get_backup_info L bid with
  | none => (Except.ok false, st)
  | some info =>
    if info.isEmpty then (Except.ok false, st)
    else
      let r1 := if otruthy (aget info "registry_backups") then
          restore_fold (restore_registry_backup env) st
            (jitems ((aget info "registry_backups").getD (JVal.list []))) true
        else (true, st)
      let r2 := if otruthy (aget info "file_backups") then
          restore_fold (restore_file_backup env) r1.2
            (jitems ((aget info "file_backups").getD (JVal.list []))) r1.1
        else r1
      match restore_services_section env info r2 with
      | Except.error _ => (Except.error (), r2.2)
      | Except.ok r3 =>
        let r4 := if otruthy (aget info "power_settings") then
            let s := restore_power_plan env r3.2 ((aget info "power_settings").getD (JVal.obj []))
            (r3.1 && s.1, s.2)
          else r3
        let r5 := if otruthy (aget info "startup_items") then
            let s := restore_startup_items env t r4.2 ((aget info "startup_items").getD (JVal.list []))
            (r4.1 && s.1, s.2)
          else r4
        (Except.ok r5.1, r5.2)

/-- `RestoreManager.restore_operation`: the `try` body under the broad
`except` that converts any escaped exception into an overall `False`
(keeping whatever restore work already happened). -/
def restore_operation (env : Env) (t : String) (L : Ledger) (st : SysState)
    (bid : String) : Except Unit Bool × SysState :=
  match restore_operation_try env t L st bid with
  | (Except.ok b, s) => (Except.ok b, s)
  | (Except.error _, s) => (Except.ok false, s)

/-- Python `str()` of a JSON value as interpolated into the preview's
f-strings (display approximation for non-string values). -/
def pystr : JVal → String
  | JVal.s v => v
  | JVal.list _ => "[...]"
  | JVal.obj _ => "\x7b...\x7d"

/-- `m.get(k, dflt)` rendered into an f-string. -/
def fstr_get (m : JObj) (k dflt : String) : String :=
  match aget m k with
  | some v => pystr v
  | none => dflt

/-- One registry row of the restore preview; `None` when the entry is not
a dict (its `.get` would raise, aborting the whole preview). -/
def preview_reg_action (e : JVal) : Option JVal :=
  match e with
  | JVal.obj m => some (JVal.obj
      [("type", JVal.s "registry"),
       ("description", JVal.s ("Restaurar registro: " ++ fstr_get m "description" "N/A")),
       ("details", JVal.s (fstr_get m "hkey" "None" ++ "\\" ++ fstr_get m "subkey" "None"))])
  | _ => none

/-- One file row of the restore preview (same failure mode). -/
def preview_file_action (e : JVal) : Option JVal :=
  match e with
  | JVal.obj m => some (JVal.obj
      [("type", JVal.s "file"),
       ("description", JVal.s ("Restaurar arquivo: " ++ fstr_get m "description" "N/A")),
       ("details", (aget m "original_path").getD (JVal.s "N/A"))])
  | _ => none

/-- One service row of the restore preview. -/
def preview_service_action (p : String × JVal) : Option JVal :=
  match p.2 with
  | JVal.obj m => some (JVal.obj
      [("type", JVal.s "service"),
       ("description", JVal.s ("Restaurar serviço: " ++ p.1)),
       ("details", JVal.s ("Estado: " ++ fstr_get m "state" "Unknown"))])
  | _ => none

/-- `RestoreManager.get_restore_preview`: the dry-run action list built
from the document with no side effects; `None` when the document is
absent or any entry has an unexpected shape (the raised error is caught
and converted to `None`). -/
def get_restore_preview (L : Ledger) (bid : String) : Option JObj :=
  match get_backup_info L bid with
  | none => none
  | some info =>
    match (jitems ((aget info "registry_backups").getD (JVal.list []))).mapM
        preview_reg_action with
    | none => none
    | some regActs =>
      match (jitems ((aget info "file_backups").getD (JVal.list []))).mapM
          preview_file_action with
      | none => none
      | some fileActs =>
        let svcSection := (aget info "service_states").getD (JVal.obj [])
        match svcSection with
        | JVal.obj sm =>
          match sm.mapM preview_service_action with
          | none => none
          | some svcActs =>
            let powerActs := if otruthy (aget info "power_settings") then
                [JVal.obj [("type", JVal.s "power"),
                           ("description", JVal.s "Restaurar plano de energia"),
                           ("details", JVal.s "Plano anterior")]]
              else []
            let startupCount := (jitems ((aget info "startup_items").getD (JVal.list []))).length
            let startupActs := if 0 < startupCount then
                [JVal.obj [("type", JVal.s "startup"),
                           ("description", JVal.s "Restaurar itens de inicialização"),
                           ("details", JVal.s (toString startupCount ++ " itens"))]]
              else []
            some [("operation", (aget info "operation").getD (JVal.s "Unknown")),
                  ("timestamp", (aget info "timestamp").getD (JVal.s "Unknown")),
                  ("actions", JVal.list (regActs ++ fileActs ++ svcActs ++ powerActs ++ startupActs))]
        | _ => none

/-- Sort key of `list_backups`: `x.get('timestamp', '')`. -/
def doc_ts (d : JObj) : String :=
  match aget d "timestamp" with
  | some (JVal.s v) => v
  | _ => ""

/-- Stable descending insertion for the newest-first ordering of
`list_backups` (Python's stable `sort(..., reverse=True)`). -/
def insert_desc (x : JObj) : List JObj → List JObj
  | [] => [x]
  | y :: rest => if doc_ts y < doc_ts x then x :: y :: rest else y :: insert_desc x rest

/-- `BackupManager.list_backups`: read every `*_info.json` document, add
its `info_file` path, and order newest-first by timestamp.  Unreadable
documents are skipped inside the loop, so the function never raises. -/
def list_backups (L : Ledger) : List JObj :=
  (L.map fun p => aset p.2 "info_file" (JVal.s (backup_root_dir ++ p.1 ++ "_info.json"))).foldl
    (fun acc d => insert_desc d acc) []

/-- Lookup after an update: the updated key reads the new value, any
other key is untouched. -/
theorem aget_aset {κ α : Type} [DecidableEq κ] (l : List (κ × α)) (k k2 : κ) (v : α) :
    aget (aset l k v) k2 = if k2 = k then some v else aget l k2 := by
  induction l with
  | nil =>
    by_cases h : k2 = k
    · subst h; simp [aget, aset]
    · have h2 : ¬(k = k2) := fun e => h e.symm
      simp [aget, aset, h, h2]
  | cons hd tl ih =>
    obtain ⟨a, b⟩ := hd
    by_cases h1 : a = k
    · subst h1
      by_cases h : k2 = a
      · subst h; simp [aget, aset]
      · have h2 : ¬(a = k2) := fun e => h e.symm
        simp [aget, aset, h, h2]
    · by_cases h : k2 = k
      · subst h
        by_cases h3 : a = k2
        · exact absurd h3 h1
        · simp [aget, aset, h1, h3, ih]
      · by_cases h3 : a = k2
        · subst h3; simp [aget, aset, h1, h, ih]
        · simp [aget, aset, h1, h3, h, ih]

/-- Updating an absent key appends the binding at the end. -/
theorem aset_absent {κ α : Type} [DecidableEq κ] (l : List (κ × α)) (k : κ) (v : α)
    (h : aget l k = none) : aset l k v = l ++ [(k, v)] := by
  induction l with
  | nil => simp [aset]
  | cons hd tl ih =>
    simp only [aget] at h
    by_cases h1 : hd.1 = k
    · simp [h1] at h
    · simp only [aset, h1, if_neg, not_false_iff, List.cons_append, List.cons.injEq, true_and]
      exact ih (by simpa [h1] using h)

/-- Re-writing the value already present leaves the list untouched. -/
theorem aset_same {κ α : Type} [DecidableEq κ] (l : List (κ × α)) (k : κ) (v : α)
    (h : aget l k = some v) : aset l k v = l := by
  induction l with
  | nil => simp [aget] at h
  | cons hd tl ih =>
    simp only [aget] at h
    by_cases h1 : hd.1 = k
    · simp only [h1, if_pos] at h
      obtain ⟨p, q⟩ := hd
      simp only at h1
      subst h1
      simp only [Option.some.injEq] at h
      subst h
      simp [aset]
    · simp only [h1, if_neg, not_false_iff] at h
      simp [aset, h1, ih h]

/-- An environment in which every OS primitive succeeds. -/
def env0 : Env where
  reg_export_ok := fun _ _ => true
  reg_import_ok := fun _ => true
  reg_set_ok := fun _ _ _ => true
  copy_ok := fun _ _ => true
  zip_ok := fun _ => true
  unzip_ok := fun _ => true
  ledger_write_ok := fun _ => true
  net_start_ok := fun _ => true
  net_stop_ok := fun _ => true
  powercfg_ok := fun _ => true
  power_query := fun g => (true, g)
  svc_info := fun _ => []
  unlink_ok := fun _ => true

/-- An operating-system state with nothing in it. -/
def sys_empty : SysState :=
  { files := [], reg := [], services := [], power_plan := "balanced" }

/-- Claim C10: a service snapshot whose recorded run state is any string
other than `RUNNING` or `STOPPED` — in particular `PAUSED` or `UNKNOWN`
— makes `_restore_service_state` perform no start or stop action (the
state is returned untouched) and report success, even though `PAUSED` is
a distinct capturable member of the `ServiceState` enum. -/
theorem claim_c10 (env : Env) (st : SysState) (name v : String) (m : JObj)
    (hstate : aget m "state" = some (JVal.s v))
    (hv : v = "PAUSED" ∨ v = "UNKNOWN") :
    restore_service_state env st name (JVal.obj m) = (true, st) ∧
      ServiceState.PAUSED ≠ ServiceState.UNKNOWN ∧
      ServiceState.PAUSED.value = "PAUSED" := by
  refine ⟨?_, by decide, rfl⟩
  rcases hv with hv | hv <;> subst hv <;> simp [restore_service_state, hstate]

/-- Concrete instance of C10: restoring a `PAUSED` snapshot of `svcA`
touches nothing and succeeds. -/
theorem claim_c10_witness :
    restore_service_state env0 sys_empty "svcA"
        (JVal.obj [("name", JVal.s "svcA"), ("state", JVal.s "PAUSED")]) =
      (true, sys_empty) ∧
      ServiceState.PAUSED ≠ ServiceState.UNKNOWN ∧
      ServiceState.PAUSED.value = "PAUSED" :=
  claim_c10 env0 sys_empty "svcA" "PAUSED"
    [("name", JVal.s "svcA"), ("state", JVal.s "PAUSED")] rfl (Or.inl rfl)

/-- Claim C2: when the `backup_id` resolves to no ledger document,
`restore_operation` returns an overall failure, leaves the live system
untouched, and raises nothing to the caller. -/
theorem claim_c2 (env : Env) (t : String) (L : Ledger) (st : SysState) (bid : String)
    (h : get_backup_info L bid = none) :
    restore_operation env t L st bid = (Except.ok false, st) := by
  simp [restore_operation, restore_operation_try, h]

/-- Concrete instance of C2: an unknown id against an empty ledger. -/
theorem claim_c2_witness :
    restore_operation env0 "t" [] sys_empty "missing_backup" = (Except.ok false, sys_empty) :=
  claim_c2 env0 "t" [] sys_empty "missing_backup" rfl

/-- Refutation of C3 as stated: capturing a registry key that does not
exist returns failure, not success — `reg export` fails, `backup_key`
yields `None`, and `backup_registry_key` maps that to `False`. -/
theorem claim_c3_counterexample :
    backup_registry_key env0 "t" { ledger := [], sys := sys_empty } "bid" "HKCU"
        "Software\\Missing" "" =
      (Except.ok false, { ledger := [], sys := sys_empty }) := rfl

/-- Claim C3 as amended: capturing a path at which nothing exists
(`Path.exists()` false) returns success and records no snapshot entry,
for files and directories alike, but capturing an absent registry key
returns failure (also recording nothing). -/
theorem claim_c3 (env : Env) (t : String) (es : EngineSt)
    (bid path dpath hive sub descf descd descr : String)
    (hf : path_exists es.sys.files path = false)
    (hd : path_exists es.sys.files dpath = false)
    (hr : aget es.sys.reg (hive, sub) = none) :
    backup_file env es bid path descf = (Except.ok true, es) ∧
      backup_directory env es bid dpath descd = (Except.ok true, es) ∧
      backup_registry_key env t es bid hive sub descr = (Except.ok false, es) := by
  refine ⟨?_, ?_, ?_⟩
  · simp [backup_file, backup_file_try, hf]
  · simp [backup_directory, backup_directory_try, hd]
  · simp [backup_registry_key, backup_key, hr]

/-- Concrete instance of the amended C3 on an empty system. -/
theorem claim_c3_witness :
    backup_file env0 { ledger := [], sys := sys_empty } "bid" "C:\\gone.txt" "d" =
        (Except.ok true, { ledger := [], sys := sys_empty }) ∧
      backup_directory env0 { ledger := [], sys := sys_empty } "bid" "C:\\gonedir" "d" =
        (Except.ok true, { ledger := [], sys := sys_empty }) ∧
      backup_registry_key env0 "t" { ledger := [], sys := sys_empty } "bid" "HKCU"
          "Software\\Gone" "d" =
        (Except.ok false, { ledger := [], sys := sys_empty }) :=
  claim_c3 env0 "t" { ledger := [], sys := sys_empty } "bid" "C:\\gone.txt" "C:\\gonedir"
    "HKCU" "Software\\Gone" "d" "d" "d" rfl rfl rfl

/-- An environment in which only the durable ledger write fails. -/
def env_noledger : Env := { env0 with ledger_write_ok := fun _ => false }

/-- Refutation of C6 as stated: with the snapshot taken but the ledger
document unwritable, `backup_file` still reports success — the write
failure is logged and swallowed inside `_update_backup_info`. -/
theorem claim_c6_counterexample :
    (backup_file env_noledger
        { ledger := [], sys := { sys_empty with files := [("C:\\f.txt", FileData.bytes "hi")] } }
        "bid" "C:\\f.txt" "").1 = Except.ok true := rfl

/-- Claim C6 as amended: when the snapshot is taken but the ledger
document cannot be written, every `capture_*` call — `backup_file`,
`backup_directory`, `backup_registry_key`, `backup_service_state`,
`backup_power_plan`, `backup_startup_items` — still returns success (the
write failure is logged and swallowed inside `_update_backup_info`);
previously written ledger entries for the id remain intact, and the blob
copies persist. -/
theorem claim_c6 (env : Env) (t : String) (es : EngineSt)
    (bid path dpath hive sub svc descf descd descr : String)
    (content : FileData) (vals : List (String × String))
    (hw : env.ledger_write_ok bid = false)
    (hc : aget es.sys.files path = some content)
    (hcopy : env.copy_ok path (file_backup_dir ++ bid ++ "_" ++ safe_name path) = true)
    (hdf : aget es.sys.files dpath = none)
    (hd : (dir_entries es.sys.files dpath).isEmpty = false)
    (hzip : env.zip_ok (file_backup_dir ++ bid ++ "_" ++ safe_name dpath ++ ".zip") = true)
    (hk : aget es.sys.reg (hive, sub) = some vals)
    (hexp : env.reg_export_ok hive sub = true)
    (hq : (env.power_query es.sys.power_plan).1 = true) :
    backup_file env es bid path descf =
        (Except.ok true,
         { ledger := es.ledger,
           sys := { es.sys with
                    files := aset es.sys.files
                      (file_backup_dir ++ bid ++ "_" ++ safe_name path) content } }) ∧
      backup_directory env es bid dpath descd =
        (Except.ok true,
         { ledger := es.ledger,
           sys := { es.sys with
                    files := aset es.sys.files
                      (file_backup_dir ++ bid ++ "_" ++ safe_name dpath ++ ".zip")
                      (FileData.zipBlob (dir_entries es.sys.files dpath)) } }) ∧
      backup_registry_key env t es bid hive sub descr =
        (Except.ok true,
         { ledger := es.ledger,
           sys := { es.sys with
                    files := aset es.sys.files
                      (reg_backup_dir ++ hive ++ "_" ++ safe_subkey sub ++ "_" ++ t ++ ".reg")
                      (FileData.regBlob (hive, sub) vals) } }) ∧
      backup_service_state env es bid svc = (Except.ok true, es) ∧
      backup_power_plan env t es bid = (Except.ok true, es) ∧
      backup_startup_items env es bid = (Except.ok true, es) := by
  have hpe : path_exists es.sys.files path = true := by simp [path_exists, hc]
  have hpd : path_exists es.sys.files dpath = true := by simp [path_exists, hdf, hd]
  refine ⟨?_, ?_, ?_, ?_, ?_, ?_⟩
  · simp [backup_file, backup_file_try, hpe, hc, hcopy, update_backup_info, hw]
  · simp [backup_directory, backup_directory_try, hpd, hzip, update_backup_info, hw]
  · simp [backup_registry_key, backup_key, hk, hexp, update_backup_info, hw]
  · simp [backup_service_state, update_backup_info, hw]
  · simp [backup_power_plan, hq, update_backup_info, hw]
  · simp [backup_startup_items, update_backup_info, hw]

/-- Engine state for the C6 instance: one prior ledger document, a plain
file, a genuine directory holding one file (nothing sits at the
directory path itself), and one registry key. -/
def c6_es : EngineSt :=
  { ledger := [("bid", [("operation", JVal.s "demo")])],
    sys := { files := [("C:\\f.txt", FileData.bytes "hi"),
                       ("C:\\dir\\a.txt", FileData.bytes "a")],
             reg := [(("HKCU", "Software\\X"), [("v", "1")])],
             services := [], power_plan := "p" } }

/-- Concrete instance of the amended C6: all six captures run while every
ledger write fails; each reports success and the prior ledger document
survives untouched. -/
theorem claim_c6_witness :
    backup_file env_noledger c6_es "bid" "C:\\f.txt" "" =
        (Except.ok true,
         { ledger := c6_es.ledger,
           sys := { c6_es.sys with
                    files := aset c6_es.sys.files
                      (file_backup_dir ++ "bid" ++ "_" ++ safe_name "C:\\f.txt")
                      (FileData.bytes "hi") } }) ∧
      backup_directory env_noledger c6_es "bid" "C:\\dir" "" =
        (Except.ok true,
         { ledger := c6_es.ledger,
           sys := { c6_es.sys with
                    files := aset c6_es.sys.files
                      (file_backup_dir ++ "bid" ++ "_" ++ safe_name "C:\\dir" ++ ".zip")
                      (FileData.zipBlob (dir_entries c6_es.sys.files "C:\\dir")) } }) ∧
      backup_registry_key env_noledger "t" c6_es "bid" "HKCU" "Software\\X" "" =
        (Except.ok true,
         { ledger := c6_es.ledger,
           sys := { c6_es.sys with
                    files := aset c6_es.sys.files
                      (reg_backup_dir ++ "HKCU" ++ "_" ++ safe_subkey "Software\\X" ++ "_" ++
                        "t" ++ ".reg")
                      (FileData.regBlob ("HKCU", "Software\\X") [("v", "1")]) } }) ∧
      backup_service_state env_noledger c6_es "bid" "svcA" = (Except.ok true, c6_es) ∧
      backup_power_plan env_noledger "t" c6_es "bid" = (Except.ok true, c6_es) ∧
      backup_startup_items env_noledger c6_es "bid" = (Except.ok true, c6_es) :=
  claim_c6 env_noledger "t" c6_es "bid" "C:\\f.txt" "C:\\dir" "HKCU" "Software\\X" "svcA"
    "" "" "" (FileData.bytes "hi") [("v", "1")]
    rfl rfl rfl rfl (by decide) rfl rfl rfl rfl

/-- Refutation of C7 as stated: a keyed append under an already-present
key (here a second `service_states` snapshot of `svcA`) replaces the
existing entry instead of preserving it. -/
theorem claim_c7_counterexample :
    update_section [("service_states", JVal.obj [("svcA", JVal.s "one")])]
        "service_states" (JVal.s "two") (some "svcA") =
      [("service_states", JVal.obj [("svcA", JVal.s "two")])] ∧
      aget [("svcA", JVal.s "one")] "svcA" = some (JVal.s "one") :=
  ⟨rfl, rfl⟩

/-- Claim C7 as amended: an append never touches any other section, an
unkeyed append to a list-valued section appends at the end preserving
every existing entry, and a keyed append under a key not yet present
appends the new binding preserving every existing one — but a keyed
append under an existing key upserts (replaces), and an unkeyed append
to a non-list section replaces the section's value. -/
theorem claim_c7 (doc : JObj) (sec : String) (data : JVal) (key : Option String) :
    (∀ sec2, sec2 ≠ sec → aget (update_section doc sec data key) sec2 = aget doc sec2) ∧
      (∀ l, aget doc sec = some (JVal.list l) →
        update_section doc sec data none = aset doc sec (JVal.list (l ++ [data]))) ∧
      (∀ k m, k ≠ "" → aget doc sec = some (JVal.obj m) → aget m k = none →
        update_section doc sec data (some k) = aset doc sec (JVal.obj (m ++ [(k, data)]))) := by
  refine ⟨?_, ?_, ?_⟩
  · intro sec2 hne
    match key with
    | none =>
      unfold update_section update_unkeyed
      rcases hsec : aget doc sec with _ | v
      · simp [aget_aset, hne]
      · cases v <;> simp [aget_aset, hne]
    | some k =>
      unfold update_section
      by_cases hk : k = ""
      · unfold update_unkeyed
        rcases hsec : aget doc sec with _ | v
        · simp [hk, aget_aset, hne]
        · cases v <;> simp [hk, aget_aset, hne]
      · rcases hsec : aget doc sec with _ | v
        · simp [hk, aget_aset, hne]
        · cases v <;> simp [hk, aget_aset, hne]
  · intro l hsec
    unfold update_section update_unkeyed
    simp [hsec]
  · intro k m hk hsec hfresh
    unfold update_section
    simp [hk, hsec, aset_absent m k data hfresh]

/-- Concrete instance of the amended C7: appending a second registry
entry leaves the file section alone and keeps the first entry; a fresh
service key is appended after the existing one. -/
theorem claim_c7_witness :
    aget (update_section
        [("registry_backups", JVal.list [JVal.s "e1"]), ("file_backups", JVal.list [JVal.s "f1"])]
        "registry_backups" (JVal.s "e2") none) "file_backups" =
      aget [("registry_backups", JVal.list [JVal.s "e1"]), ("file_backups", JVal.list [JVal.s "f1"])]
        "file_backups" ∧
      update_section [("registry_backups", JVal.list [JVal.s "e1"])] "registry_backups"
          (JVal.s "e2") none =
        aset [("registry_backups", JVal.list [JVal.s "e1"])] "registry_backups"
          (JVal.list ([JVal.s "e1"] ++ [JVal.s "e2"])) ∧
      update_section [("service_states", JVal.obj [("svcA", JVal.s "one")])] "service_states"
          (JVal.s "two") (some "svcB") =
        aset [("service_states", JVal.obj [("svcA", JVal.s "one")])] "service_states"
          (JVal.obj ([("svcA", JVal.s "one")] ++ [("svcB", JVal.s "two")])) :=
  ⟨(claim_c7 [("registry_backups", JVal.list [JVal.s "e1"]),
      ("file_backups", JVal.list [JVal.s "f1"])] "registry_backups" (JVal.s "e2") none).1
      "file_backups" (by decide),
   (claim_c7 [("registry_backups", JVal.list [JVal.s "e1"])] "registry_backups"
      (JVal.s "e2") none).2.1 [JVal.s "e1"] rfl,
   (claim_c7 [("service_states", JVal.obj [("svcA", JVal.s "one")])] "service_states"
      (JVal.s "two") (some "svcB")).2.2 "svcB" [("svcA", JVal.s "one")] (by decide) rfl rfl⟩

/-- Refutation of C5 as stated: the prune walks raw file mtimes with no
reference check.  A blob whose mtime predates the cutoff (file copies
preserve the source's mtime) is deleted even though the surviving ledger
document — mtime 100, still listing `blob` under `file_backups` — still
references it. -/
theorem claim_c5_counterexample :
    referenced_blob_paths
        [("operation", JVal.s "demo"),
         ("file_backups", JVal.list
            [JVal.obj [("original_path", JVal.s "C:\\old.txt"),
                       ("backup_path", JVal.s "blob"),
                       ("description", JVal.s "")]])] = ["blob"] ∧
      cleanup_old_backups env0 50 [("demo_info.json", 100), ("blob", 10)] =
        (1, [("demo_info.json", 100)]) :=
  ⟨rfl, rfl⟩

/-- Claim C5 as amended: with deletions succeeding, pruning deletes
exactly the files — ledger documents and blobs alike — whose own mtime
is strictly below the cutoff and leaves every file at or above the
cutoff intact; because the criterion is the file's own mtime, a blob can
be deleted while a newer ledger document still referencing it
survives. -/
theorem claim_c5 (env : Env) (cutoff : Nat) (fs : List (String × Nat))
    (hok : ∀ f ∈ fs, env.unlink_ok f.1 = true) :
    cleanup_old_backups env cutoff fs =
      ((fs.filter fun f => decide (f.2 < cutoff)).length,
       fs.filter fun f => decide (cutoff ≤ f.2)) := by
  induction fs with
  | nil => simp [cleanup_old_backups]
  | cons f rest ih =>
    have hf : env.unlink_ok f.1 = true := hok f (by simp)
    have hrest : ∀ g ∈ rest, env.unlink_ok g.1 = true := fun g hg => hok g (by simp [hg])
    by_cases h : f.2 < cutoff
    · simp [cleanup_old_backups, h, hf, ih hrest, Nat.not_le.mpr h]
    · simp [cleanup_old_backups, h, ih hrest, Nat.le_of_not_lt h]

/-- Concrete instance of the amended C5: of two files around the cutoff,
exactly the older one is removed. -/
theorem claim_c5_witness :
    cleanup_old_backups env0 50 [("newer", 60), ("older", 40)] = (1, [("newer", 60)]) := by
  have h := claim_c5 env0 50 [("newer", 60), ("older", 40)] (by intro f hf; rfl)
  simpa using h

/-- Refutation of C9 as stated: `create_operation_backup` has no
`try/except`, so a failed write of the initial ledger document
propagates the raw OS exception to the caller. -/
theorem claim_c9_counterexample :
    create_operation_backup env_noledger "20240101_000000" [] "demo" =
      (Except.error (), []) := rfl

/-- Claim C9 as amended: every public engine operation except
`create_operation_backup` converts archiver- and ledger-level errors to
boolean/report outcomes at the boundary — `restore_operation` and the
whole `capture_*` family return an `ok` outcome for every behaviour of
the OS primitives — but `create_operation_backup` propagates the
exception of a failed initial ledger write. -/
theorem claim_c9 :
    (∀ (env : Env) (t : String) (L : Ledger) (name : String),
        env.ledger_write_ok (name ++ "_" ++ t) = false →
        create_operation_backup env t L name = (Except.error (), L)) ∧
      (∀ (env : Env) (t : String) (L : Ledger) (st : SysState) (bid : String),
        ∃ b, (restore_operation env t L st bid).1 = Except.ok b) ∧
      (∀ (env : Env) (es : EngineSt) (bid path desc : String),
        ∃ b, (backup_file env es bid path desc).1 = Except.ok b) ∧
      (∀ (env : Env) (es : EngineSt) (bid path desc : String),
        ∃ b, (backup_directory env es bid path desc).1 = Except.ok b) ∧
      (∀ (env : Env) (t : String) (es : EngineSt) (bid hive sub desc : String),
        ∃ b, (backup_registry_key env t es bid hive sub desc).1 = Except.ok b) ∧
      (∀ (env : Env) (es : EngineSt) (bid name : String),
        ∃ b, (backup_service_state env es bid name).1 = Except.ok b) ∧
      (∀ (env : Env) (t : String) (es : EngineSt) (bid : String),
        ∃ b, (backup_power_plan env t es bid).1 = Except.ok b) ∧
      (∀ (env : Env) (es : EngineSt) (bid : String),
        ∃ b, (backup_startup_items env es bid).1 = Except.ok b) := by
  refine ⟨?_, ?_, ?_, ?_, ?_, ?_, ?_, ?_⟩
  · intro env t L name h
    simp [create_operation_backup, h]
  · intro env t L st bid
    unfold restore_operation
    rcases restore_operation_try env t L st bid with ⟨r, s⟩
    cases r <;> exact ⟨_, rfl⟩
  · intro env es bid path desc
    unfold backup_file
    rcases backup_file_try env es bid path desc with ⟨r, s⟩
    cases r <;> exact ⟨_, rfl⟩
  · intro env es bid path desc
    unfold backup_directory
    rcases backup_directory_try env es bid path desc with ⟨r, s⟩
    cases r <;> exact ⟨_, rfl⟩
  · intro env t es bid hive sub desc
    cases hb : (backup_key env t es.sys hive sub).1 with
    | none => exact ⟨false, by simp [backup_registry_key, hb]⟩
    | some p => exact ⟨true, by simp [backup_registry_key, hb]⟩
  · intro env es bid name
    exact ⟨true, rfl⟩
  · intro env t es bid
    by_cases h : (env.power_query es.sys.power_plan).1
    · exact ⟨true, by simp [backup_power_plan, h]⟩
    · exact ⟨false, by simp [backup_power_plan, h]⟩
  · intro env es bid
    exact ⟨true, rfl⟩

/-- Concrete instance of the amended C9: the initial ledger write fails
and the exception escapes `create_operation_backup`, while
`restore_operation` in the same situation still returns an outcome. -/
theorem claim_c9_witness :
    create_operation_backup env_noledger "t0" [] "op" = (Except.error (), []) ∧
      ∃ b, (restore_operation env0 "t0" [] sys_empty "x").1 = Except.ok b :=
  ⟨claim_c9.1 env_noledger "t0" [] "op" rfl, claim_c9.2.1 env0 "t0" [] sys_empty "x"⟩

/-- Claim C4, evaluated against the code: after `create_operation_backup`
and `backup_startup_items` record one startup entry (`App`), the ledger
stores the item list nested as a single element of `startup_items`
(`_update_backup_info` appends the whole list), so `restore_operation`
iterates over that inner list object instead of the item dicts, its
`.get` raises and is skipped, no registry value is re-written (the live
state is returned unchanged), and the overall result is failure — the
claimed behaviour (each of the N entries re-written and success
reported) does not happen. -/
theorem claim_c4_bug_eval :
    (backup_startup_items env0
        { ledger := (create_operation_backup env0 "20240101_000000" [] "demo").2,
          sys := { files := [],
                   reg := [(("HKCU", "Software\\Microsoft\\Windows\\CurrentVersion\\Run"),
                     [("App", "C:\\app.exe")])],
                   services := [], power_plan := "balanced" } }
        "demo_20240101_000000").1 = Except.ok true ∧
      aget ((aget (backup_startup_items env0
          { ledger := (create_operation_backup env0 "20240101_000000" [] "demo").2,
            sys := { files := [],
                     reg := [(("HKCU", "Software\\Microsoft\\Windows\\CurrentVersion\\Run"),
                       [("App", "C:\\app.exe")])],
                     services := [], power_plan := "balanced" } }
          "demo_20240101_000000").2.ledger "demo_20240101_000000").getD []) "startup_items" =
        some (JVal.list [JVal.list [JVal.obj
          [("hkey", JVal.s "HKCU"),
           ("subkey", JVal.s "Software\\Microsoft\\Windows\\CurrentVersion\\Run"),
           ("name", JVal.s "App"), ("value", JVal.s "C:\\app.exe"),
           ("type", JVal.s "registry")]]]) ∧
      restore_operation env0 "t2"
          (backup_startup_items env0
            { ledger := (create_operation_backup env0 "20240101_000000" [] "demo").2,
              sys := { files := [],
                       reg := [(("HKCU", "Software\\Microsoft\\Windows\\CurrentVersion\\Run"),
                         [("App", "C:\\app.exe")])],
                       services := [], power_plan := "balanced" } }
            "demo_20240101_000000").2.ledger
          { files := [],
            reg := [(("HKCU", "Software\\Microsoft\\Windows\\CurrentVersion\\Run"),
              [("App", "C:\\app.exe")])],
            services := [], power_plan := "balanced" }
          "demo_20240101_000000" =
        (Except.ok false,
         { files := [],
           reg := [(("HKCU", "Software\\Microsoft\\Windows\\CurrentVersion\\Run"),
             [("App", "C:\\app.exe")])],
           services := [], power_plan := "balanced" }) :=
  ⟨rfl, rfl, rfl⟩

/-- The per-entry outcome list of one restore traversal: apply the entry
restorer to every entry in order, threading the state, and collect each
entry's individual success flag. -/
def thread {α : Type} (f : SysState → α → Bool × SysState) :
    SysState → List α → List Bool × SysState
  | st, [] => ([], st)
  | st, e :: rest =>
    let r := f st e
    let w := thread f r.2 rest
    (r.1 :: w.1, w.2)

/-- The section loop visits every entry and succeeds exactly when the
incoming flag and every individual entry outcome are true. -/
theorem restore_fold_eq_thread (f : SysState → JVal → Bool × SysState)
    (l : List JVal) (st : SysState) (b : Bool) :
    restore_fold f st l b = (b && ((thread f st l).1.all id), (thread f st l).2) := by
  induction l generalizing st b with
  | nil => simp [restore_fold, thread]
  | cons e rest ih => simp [restore_fold, thread, ih, Bool.and_assoc]

/-- The service-section fold visits every pair and conjoins each pair's
outcome onto the incoming flag. -/
theorem services_foldl_eq_thread (env : Env) (m : List (String × JVal))
    (acc : Bool × SysState) :
    m.foldl (fun (a : Bool × SysState) p =>
        let s := restore_service_state env a.2 p.1 p.2
        (a.1 && s.1, s.2)) acc =
      (acc.1 && ((thread (fun s p => restore_service_state env s p.1 p.2) acc.2 m).1.all id),
       (thread (fun s p => restore_service_state env s p.1 p.2) acc.2 m).2) := by
  induction m generalizing acc with
  | nil => simp [thread]
  | cons p rest ih =>
    rcases acc with ⟨ab, ast⟩
    simp [thread, ih, Bool.and_assoc]

/-- The startup fold counts exactly the entries whose step succeeded. -/
theorem startup_fold_eq_thread (env : Env) (t : String) (items : List JVal)
    (st : SysState) (n : Nat) :
    items.foldl (fun (acc : Nat × SysState) it =>
        let s := startup_item_step env t acc.2 it
        (acc.1 + (if s.1 then 1 else 0), s.2)) (n, st) =
      (n + ((thread (startup_item_step env t) st items).1.count true),
       (thread (startup_item_step env t) st items).2) := by
  induction items generalizing st n with
  | nil => simp [thread]
  | cons it rest ih =>
    simp only [List.foldl_cons, thread, ih]
    rcases h : (startup_item_step env t st it).1 with _ | _ <;>
      simp [h, List.count_cons, Nat.add_comm, Nat.add_assoc, Nat.add_left_comm]

/-- One list-valued section of a restore, summarised as the list of
per-entry outcomes plus the threaded final state (empty outcome list
when the section is absent or falsy, which the traversal skips). -/
def section_thread (f : SysState → JVal → Bool × SysState) (info : JObj) (sec : String)
    (st : SysState) : List Bool × SysState :=
  if otruthy (aget info sec) then
    thread f st (jitems ((aget info sec).getD (JVal.list [])))
  else ([], st)

/-- The service section summarised the same way (dict-shaped sections
only; a truthy non-dict raises instead, outside this summary). -/
def svc_section_thread (env : Env) (info : JObj) (st : SysState) : List Bool × SysState :=
  match aget info "service_states" with
  | some (JVal.obj m) =>
    if truthy (JVal.obj m) then
      thread (fun s p => restore_service_state env s p.1 p.2) st m
    else ([], st)
  | _ => ([], st)

/-- The power section: one outcome (true when skipped). -/
def power_section_step (env : Env) (info : JObj) (st : SysState) : Bool × SysState :=
  if otruthy (aget info "power_settings") then
    restore_power_plan env st ((aget info "power_settings").getD (JVal.obj []))
  else (true, st)

/-- Specification-side restatement of one full restore traversal: every
entry of every section is visited in the fixed order with its outcome
recorded independently, and the overall flag demands that all registry,
file and service outcomes and the power outcome are true — while the
startup section only demands at least one successful item (or none
recorded at all). -/
def restore_spec (env : Env) (t : String) (info : JObj) (st : SysState) : Bool × SysState :=
  let rR := section_thread (restore_registry_backup env) info "registry_backups" st
  let rF := section_thread (restore_file_backup env) info "file_backups" rR.2
  let rS := svc_section_thread env info rF.2
  let pw := power_section_step env info rS.2
  let items := jitems ((aget info "startup_items").getD (JVal.list []))
  let rU := if otruthy (aget info "startup_items") then
      thread (startup_item_step env t) pw.2 items
    else ([], pw.2)
  let startup_ok := if otruthy (aget info "startup_items") then
      decide (0 < rU.1.count true) || items.isEmpty
    else true
  (rR.1.all id && rF.1.all id && rS.1.all id && pw.1 && startup_ok, rU.2)

/-- Every restore against an existing document whose service section is
well-shaped reduces to the per-entry outcome summary `restore_spec`. -/
theorem restore_eq_spec (env : Env) (t : String) (L : Ledger) (st : SysState) (bid : String)
    (info : JObj) (h : get_backup_info L bid = some info) (hne : info.isEmpty = false)
    (hsvc : ∀ v, aget info "service_states" = some v → truthy v = true →
      ∃ m, v = JVal.obj m) :
    restore_operation env t L st bid =
      (Except.ok (restore_spec env t info st).1, (restore_spec env t info st).2) := by
  have htry : restore_operation_try env t L st bid =
      (Except.ok (restore_spec env t info st).1, (restore_spec env t info st).2) := by
    unfold restore_operation_try restore_services_section restore_spec section_thread
      svc_section_thread power_section_step restore_startup_items
    rw [h]
    simp only [hne, Bool.false_eq_true, if_false]
    rcases hs : aget info "service_states" with _ | sv
    · simp only [hs, restore_fold_eq_thread, Bool.true_and, startup_fold_eq_thread,
        Nat.zero_add]
      by_cases h1 : otruthy (aget info "registry_backups") <;>
        by_cases h2 : otruthy (aget info "file_backups") <;>
          by_cases h4 : otruthy (aget info "power_settings") <;>
            by_cases h5 : otruthy (aget info "startup_items") <;>
              simp [h1, h2, h4, h5, Bool.and_assoc]
    · by_cases ht : truthy sv
      · obtain ⟨m, rfl⟩ := hsvc sv hs ht
        simp only [hs, ht, if_true, restore_fold_eq_thread, Bool.true_and,
          services_foldl_eq_thread, startup_fold_eq_thread, Nat.zero_add]
        by_cases h1 : otruthy (aget info "registry_backups") <;>
          by_cases h2 : otruthy (aget info "file_backups") <;>
            by_cases h4 : otruthy (aget info "power_settings") <;>
              by_cases h5 : otruthy (aget info "startup_items") <;>
                simp [h1, h2, h4, h5, Bool.and_assoc]
      · simp only [hs, restore_fold_eq_thread, Bool.true_and, startup_fold_eq_thread,
          Nat.zero_add]
        cases sv with
        | s v =>
          simp only [ht, if_false]
          by_cases h1 : otruthy (aget info "registry_backups") <;>
            by_cases h2 : otruthy (aget info "file_backups") <;>
              by_cases h4 : otruthy (aget info "power_settings") <;>
                by_cases h5 : otruthy (aget info "startup_items") <;>
                  simp [h1, h2, h4, h5, Bool.and_assoc]
        | list l =>
          simp only [ht, if_false]
          by_cases h1 : otruthy (aget info "registry_backups") <;>
            by_cases h2 : otruthy (aget info "file_backups") <;>
              by_cases h4 : otruthy (aget info "power_settings") <;>
                by_cases h5 : otruthy (aget info "startup_items") <;>
                  simp [h1, h2, h4, h5, Bool.and_assoc]
        | obj m =>
          simp only [ht, if_false]
          by_cases h1 : otruthy (aget info "registry_backups") <;>
            by_cases h2 : otruthy (aget info "file_backups") <;>
              by_cases h4 : otruthy (aget info "power_settings") <;>
                by_cases h5 : otruthy (aget info "startup_items") <;>
                  simp [h1, h2, h4, h5, Bool.and_assoc]
  unfold restore_operation
  rw [htry]

/-- Claim C1 as amended: `restore_operation` visits every recorded entry
of every section without stopping at failures, but overall success is
*not* "every entry succeeded": the registry, file and service entries
and the power plan must all succeed, while the startup-items section
counts as restored when at least one of its items was re-written (or
none were recorded) — so a startup section with some failing and some
succeeding items still yields overall success. -/
theorem claim_c1 (env : Env) (t : String) (L : Ledger) (st : SysState) (bid : String)
    (info : JObj) (h : get_backup_info L bid = some info) (hne : info.isEmpty = false)
    (hsvc : ∀ v, aget info "service_states" = some v → truthy v = true →
      ∃ m, v = JVal.obj m) :
    restore_operation env t L st bid =
      (Except.ok (restore_spec env t info st).1, (restore_spec env t info st).2) :=
  restore_eq_spec env t L st bid info h hne hsvc

/-- The `Run` auto-start key used in concrete scenarios. -/
def run_key : String := "Software\\Microsoft\\Windows\\CurrentVersion\\Run"

/-- An environment in which registry exports fail (no key to export) and
setting the startup value `A` fails while every other write succeeds. -/
def env_c1 : Env :=
  { env0 with
    reg_export_ok := fun _ _ => false,
    reg_set_ok := fun _ _ n => n != "A" }

/-- Refutation of C1 as stated: a ledger record whose startup-items
section holds two flat registry items, of which item `A` fails to
restore and item `B` succeeds, still yields an overall success — the
startup aggregation is "at least one restored", not "all restored". -/
theorem claim_c1_counterexample :
    restore_operation env_c1 "t"
        [("b1", [("startup_items", JVal.list
          [JVal.obj [("hkey", JVal.s "HKCU"), ("subkey", JVal.s run_key),
                     ("name", JVal.s "A"), ("value", JVal.s "x"),
                     ("type", JVal.s "registry")],
           JVal.obj [("hkey", JVal.s "HKCU"), ("subkey", JVal.s run_key),
                     ("name", JVal.s "B"), ("value", JVal.s "y"),
                     ("type", JVal.s "registry")]])])]
        sys_empty "b1" =
      (Except.ok true,
       { files := [], reg := [(("HKCU", run_key), [("B", "y")])], services := [],
         power_plan := "balanced" }) ∧
      (startup_item_step env_c1 "t" sys_empty
        (JVal.obj [("hkey", JVal.s "HKCU"), ("subkey", JVal.s run_key),
                   ("name", JVal.s "A"), ("value", JVal.s "x"),
                   ("type", JVal.s "registry")])).1 = false :=
  ⟨rfl, rfl⟩

/-- Concrete instance of the amended C1 on the same two-item record. -/
theorem claim_c1_witness :
    restore_operation env_c1 "t"
        [("b1", [("startup_items", JVal.list
          [JVal.obj [("hkey", JVal.s "HKCU"), ("subkey", JVal.s run_key),
                     ("name", JVal.s "A"), ("value", JVal.s "x"),
                     ("type", JVal.s "registry")],
           JVal.obj [("hkey", JVal.s "HKCU"), ("subkey", JVal.s run_key),
                     ("name", JVal.s "B"), ("value", JVal.s "y"),
                     ("type", JVal.s "registry")]])])]
        sys_empty "b1" =
      (Except.ok (restore_spec env_c1 "t"
          [("startup_items", JVal.list
            [JVal.obj [("hkey", JVal.s "HKCU"), ("subkey", JVal.s run_key),
                       ("name", JVal.s "A"), ("value", JVal.s "x"),
                       ("type", JVal.s "registry")],
             JVal.obj [("hkey", JVal.s "HKCU"), ("subkey", JVal.s run_key),
                       ("name", JVal.s "B"), ("value", JVal.s "y"),
                       ("type", JVal.s "registry")]])] sys_empty).1,
       (restore_spec env_c1 "t"
          [("startup_items", JVal.list
            [JVal.obj [("hkey", JVal.s "HKCU"), ("subkey", JVal.s run_key),
                       ("name", JVal.s "A"), ("value", JVal.s "x"),
                       ("type", JVal.s "registry")],
             JVal.obj [("hkey", JVal.s "HKCU"), ("subkey", JVal.s run_key),
                       ("name", JVal.s "B"), ("value", JVal.s "y"),
                       ("type", JVal.s "registry")]])] sys_empty).2) :=
  claim_c1 env_c1 "t" _ sys_empty "b1" _ rfl rfl
    (by intro v hv ht; simp [aget] at hv)

/-- A primitive effect of a file-section restore on the file map:
overwrite one path, or remove every file under a directory. -/
inductive FOp where
  | setF (k : String) (v : FileData)
  | remP (p : String)

/-- Whether a file-map operation can change the file at path `q`. -/
def covers : FOp → String → Bool
  | FOp.setF k _, q => k == q
  | FOp.remP p, q => under_dir p q

/-- Apply one primitive file operation. -/
def applyOp (fs : List (String × FileData)) : FOp → List (String × FileData)
  | FOp.setF k v => aset fs k v
  | FOp.remP p => fs.filter fun kv => ! under_dir p kv.1

/-- Apply a sequence of primitive file operations in order. -/
def applyOps (fs : List (String × FileData)) (ops : List FOp) : List (String × FileData) :=
  ops.foldl applyOp fs

/-- The last operation of the sequence that covers path `q`, if any. -/
def lastCover : List FOp → String → Option FOp
  | [], _ => none
  | op :: rest, q =>
    match lastCover rest q with
    | some o => some o
    | none => if covers op q then some op else none

/-- Lookup through a key-filtered association list. -/
theorem aget_filter (l : List (String × FileData)) (pr : String → Bool) (q : String) :
    aget (l.filter fun kv => pr kv.1) q = if pr q then aget l q else none := by
  induction l with
  | nil => simp [aget]
  | cons hd tl ih =>
    by_cases hq : hd.1 = q
    · subst hq
      by_cases hp : pr hd.1 <;> simp [aget, hp, List.filter_cons, ih]
    · by_cases hp : pr hd.1 <;> simp [aget, hp, hq, List.filter_cons, ih]

/-- The file at `q` after a sequence of operations is decided by the
last operation covering `q` (or is untouched when none does). -/
theorem aget_applyOps (ops : List FOp) (fs : List (String × FileData)) (q : String) :
    aget (applyOps fs ops) q =
      match lastCover ops q with
      | some (FOp.setF _ v) => some v
      | some (FOp.remP _) => none
      | none => aget fs q := by
  induction ops generalizing fs with
  | nil => simp [applyOps, lastCover]
  | cons op rest ih =>
    show aget (applyOps (applyOp fs op) rest) q = _
    rw [ih]
    rcases hl : lastCover rest q with _ | o
    · simp only [lastCover, hl]
      cases op with
      | setF k v =>
        by_cases hc : k = q
        · subst hc
          simp [covers, applyOp, aget_aset]
        · have hk : ¬(q = k) := fun e => hc e.symm
          simp [covers, hc, applyOp, aget_aset, hk]
      | remP p =>
        by_cases hc : under_dir p q
        · simp only [applyOp]
          rw [aget_filter fs (fun x => ! under_dir p x) q]
          simp [covers, hc]
        · simp only [applyOp]
          rw [aget_filter fs (fun x => ! under_dir p x) q]
          simp [covers, hc]
    · cases o <;> simp [lastCover, hl]

/-- Replaying the same operation sequence a second time changes no file:
the last covering operation writes the same result. -/
theorem applyOps_replay (ops : List FOp) (fs : List (String × FileData)) (q : String) :
    aget (applyOps (applyOps fs ops) ops) q = aget (applyOps fs ops) q := by
  rw [aget_applyOps, aget_applyOps]
  rcases lastCover ops q with _ | o
  · rfl
  · cases o <;> rfl

/-- A path covered by no operation of the sequence is untouched. -/
theorem aget_applyOps_of_not_covered (ops : List FOp) (fs : List (String × FileData))
    (q : String) (h : ∀ op ∈ ops, covers op q = false) :
    aget (applyOps fs ops) q = aget fs q := by
  rw [aget_applyOps]
  have hl : lastCover ops q = none := by
    induction ops with
    | nil => rfl
    | cons op rest ih =>
      have hop := h op (by simp)
      have hrest := ih fun o ho => h o (by simp [ho])
      simp [lastCover, hrest, hop]
  rw [hl]

/-- The directory destination a `directory_zip` entry would clear and
re-extract into, when it has one. -/
def entry_dir_dest : JVal → Option String
  | JVal.obj m =>
    if entry_is_dir m then
      match aget m "original_path" with
      | some (JVal.s o) => some o
      | _ => none
    else none
  | _ => none

/-- The file-map paths whose contents or existence a file-section entry
consults while restoring: its blob and, for a directory entry, the
directory path itself (whose occupation by a plain file aborts it). -/
def entry_reads (e : JVal) : List String :=
  (entry_blob e).toList ++ (entry_dir_dest e).toList

/-- All paths consulted by a list of file-section entries. -/
def reads_list (l : List JVal) : List String :=
  l.flatMap entry_reads

/-- The primitive file operations one `_restore_file_backup` call
performs, extracted against the file view `fs0` its reads see. -/
def file_entry_ops (env : Env) (fs0 : List (String × FileData)) (e : JVal) : List FOp :=
  match e with
  | JVal.obj m =>
    match aget m "backup_path" with
    | some (JVal.s p) =>
      if p = "" then []
      else if (aget fs0 p).isNone then []
      else
        match aget m "original_path" with
        | some (JVal.s o) =>
          if entry_is_dir m then
            if (aget fs0 o).isSome then []
            else
              FOp.remP o ::
                (match aget fs0 p with
                 | some (FileData.zipBlob entries) =>
                   if env.unzip_ok p then
                     entries.map fun en => FOp.setF (o ++ "\\" ++ en.1) en.2
                   else []
                 | _ => [])
          else
            if env.copy_ok p o then
              match aget fs0 p with
              | some c => [FOp.setF o c]
              | none => []
            else []
        | _ => []
    | _ => []
  | _ => []

/-- The primitive file operations of a whole file section. -/
def file_ops (env : Env) (fs0 : List (String × FileData)) (l : List JVal) : List FOp :=
  l.flatMap (file_entry_ops env fs0)

/-- One file-section entry performs exactly its extracted operations on
the file map and touches nothing else, provided its own operations do
not cover the paths it reads (its blob, and its directory destination
for a `directory_zip` entry). -/
theorem restore_file_backup_ops (env : Env) (s : SysState) (e : JVal)
    (hsafe : ∀ op ∈ file_entry_ops env s.files e, ∀ q ∈ entry_reads e, covers op q = false) :
    (restore_file_backup env s e).2 =
      { s with files := applyOps s.files (file_entry_ops env s.files e) } := by
  cases e with
  | s v => rfl
  | list l => rfl
  | obj m =>
    rcases hbp : aget m "backup_path" with _ | v
    · simp [restore_file_backup, file_entry_ops, hbp, applyOps]
    · cases v with
      | list l => simp [restore_file_backup, file_entry_ops, hbp, applyOps]
      | obj m2 => simp [restore_file_backup, file_entry_ops, hbp, applyOps]
      | s p =>
        by_cases hp : p = ""
        · simp [restore_file_backup, file_entry_ops, hbp, hp, applyOps]
        · rcases hblob : aget s.files p with _ | c
          · simp [restore_file_backup, file_entry_ops, hbp, hp, hblob, applyOps]
          · rcases horig : aget m "original_path" with _ | w
            · simp [restore_file_backup, file_entry_ops, hbp, hp, hblob, horig, applyOps]
            · cases w with
              | list l =>
                simp [restore_file_backup, file_entry_ops, hbp, hp, hblob, horig, applyOps]
              | obj m2 =>
                simp [restore_file_backup, file_entry_ops, hbp, hp, hblob, horig, applyOps]
              | s o =>
                by_cases hdir : entry_is_dir m
                · rcases ho : aget s.files o with _ | oc
                  · have hnotunder : under_dir o p = false := by
                      have hb : entry_blob (JVal.obj m) = some p := by
                        simp [entry_blob, hbp]
                      have hd : entry_dir_dest (JVal.obj m) = some o := by
                        simp [entry_dir_dest, hdir, horig]
                      have hop : FOp.remP o ∈ file_entry_ops env s.files (JVal.obj m) := by
                        simp [file_entry_ops, hbp, hp, hblob, horig, hdir, ho]
                      have := hsafe (FOp.remP o) hop p
                        (by simp [entry_reads, hb, hd])
                      simpa [covers] using this
                    have hfilter :
                        aget (s.files.filter fun kv => ! under_dir o kv.1) p =
                          some c := by
                      rw [aget_filter s.files (fun x => ! under_dir o x) p]
                      simp [hnotunder, hblob]
                    rcases c with bc | rb | entries
                    · simp [restore_file_backup, file_entry_ops, hbp, hp, hblob, horig,
                        hdir, ho, restore_directory_from_zip, hfilter, applyOps, applyOp]
                    · simp [restore_file_backup, file_entry_ops, hbp, hp, hblob, horig,
                        hdir, ho, restore_directory_from_zip, hfilter, applyOps, applyOp]
                    · by_cases hz : env.unzip_ok p
                      · simp [restore_file_backup, file_entry_ops, hbp, hp, hblob, horig,
                          hdir, ho, restore_directory_from_zip, hfilter, hz, applyOps,
                          applyOp, List.foldl_map]
                      · simp [restore_file_backup, file_entry_ops, hbp, hp, hblob, horig,
                          hdir, ho, restore_directory_from_zip, hfilter, hz, applyOps,
                          applyOp]
                  · simp [restore_file_backup, file_entry_ops, hbp, hp, hblob, horig,
                      hdir, ho, restore_directory_from_zip, applyOps]
                · by_cases hc : env.copy_ok p o
                  · simp [restore_file_backup, file_entry_ops, hbp, hp, hblob, horig,
                      hdir, hc, restore_single_file, applyOps, applyOp]
                  · simp [restore_file_backup, file_entry_ops, hbp, hp, hblob, horig,
                      hdir, hc, restore_single_file, applyOps, applyOp]

/-- Extraction only reads the paths in `entry_reads`: two file views
agreeing there extract the same operations. -/
theorem file_entry_ops_congr (env : Env) (fs1 fs0 : List (String × FileData)) (e : JVal)
    (hagree : ∀ q ∈ entry_reads e, aget fs1 q = aget fs0 q) :
    file_entry_ops env fs1 e = file_entry_ops env fs0 e := by
  cases e with
  | s v => rfl
  | list l => rfl
  | obj m =>
    rcases hbp : aget m "backup_path" with _ | v
    · simp [file_entry_ops, hbp]
    · cases v with
      | list l => simp [file_entry_ops, hbp]
      | obj m2 => simp [file_entry_ops, hbp]
      | s p =>
        have hpread : aget fs1 p = aget fs0 p :=
          hagree p (by simp [entry_reads, entry_blob, hbp])
        by_cases hp : p = ""
        · simp [file_entry_ops, hbp, hp]
        · rcases horig : aget m "original_path" with _ | w
          · simp [file_entry_ops, hbp, hp, horig, hpread]
          · cases w with
            | list l => simp [file_entry_ops, hbp, hp, horig, hpread]
            | obj m2 => simp [file_entry_ops, hbp, hp, horig, hpread]
            | s o =>
              by_cases hdir : entry_is_dir m
              · have horead : aget fs1 o = aget fs0 o :=
                  hagree o (by simp [entry_reads, entry_dir_dest, hdir, horig])
                simp [file_entry_ops, hbp, hp, horig, hdir, hpread, horead]
                rw [hpread]
              · simp [file_entry_ops, hbp, hp, horig, hdir, hpread]
                rw [hpread]

/-- Whole-section version of `file_entry_ops_congr`. -/
theorem file_ops_congr (env : Env) (fs1 fs0 : List (String × FileData)) (l : List JVal)
    (hagree : ∀ q ∈ reads_list l, aget fs1 q = aget fs0 q) :
    file_ops env fs1 l = file_ops env fs0 l := by
  induction l with
  | nil => rfl
  | cons e rest ih =>
    have h1 : file_entry_ops env fs1 e = file_entry_ops env fs0 e :=
      file_entry_ops_congr env fs1 fs0 e fun q hq =>
        hagree q (by simp [reads_list, hq])
    have h2 : file_ops env fs1 rest = file_ops env fs0 rest :=
      ih fun q hq => hagree q (by simp [reads_list] at hq ⊢; exact Or.inr hq)
    simp [file_ops, List.flatMap_cons] at h2 ⊢
    rw [h1, h2]

/-- Applying an appended operation sequence runs the two parts in
order. -/
theorem applyOps_append (fs : List (String × FileData)) (a b : List FOp) :
    applyOps fs (a ++ b) = applyOps (applyOps fs a) b := by
  simp [applyOps, List.foldl_append]

/-- The whole file section performs exactly its extracted operations on
the file map and touches nothing else, provided no operation of the
section covers a path any entry reads. -/
theorem file_section_ops (env : Env) (l : List JVal) (s : SysState)
    (hsafe : ∀ op ∈ file_ops env s.files l, ∀ q ∈ reads_list l, covers op q = false) :
    (thread (restore_file_backup env) s l).2 =
      { s with files := applyOps s.files (file_ops env s.files l) } := by
  induction l generalizing s with
  | nil => simp [thread, file_ops, applyOps]
  | cons e rest ih =>
    have hsub_op_e : ∀ op ∈ file_entry_ops env s.files e,
        op ∈ file_ops env s.files (e :: rest) := by
      intro op hop
      simp [file_ops, List.flatMap_cons]
      exact Or.inl hop
    have hsub_op_rest : ∀ op ∈ file_ops env s.files rest,
        op ∈ file_ops env s.files (e :: rest) := by
      intro op hop
      simp only [file_ops, List.flatMap_cons, List.mem_append]
      exact Or.inr (by simpa [file_ops] using hop)
    have hsub_rd_e : ∀ q ∈ entry_reads e, q ∈ reads_list (e :: rest) := by
      intro q hq
      simp [reads_list, List.flatMap_cons]
      exact Or.inl hq
    have hsub_rd_rest : ∀ q ∈ reads_list rest, q ∈ reads_list (e :: rest) := by
      intro q hq
      simp only [reads_list, List.flatMap_cons, List.mem_append]
      exact Or.inr (by simpa [reads_list] using hq)
    have hstep := restore_file_backup_ops env s e fun op hop q hq =>
      hsafe op (hsub_op_e op hop) q (hsub_rd_e q hq)
    have hagree : ∀ q ∈ reads_list rest,
        aget (applyOps s.files (file_entry_ops env s.files e)) q = aget s.files q := by
      intro q hq
      exact aget_applyOps_of_not_covered _ _ _ fun op hop =>
        hsafe op (hsub_op_e op hop) q (hsub_rd_rest q hq)
    have hcong : file_ops env (applyOps s.files (file_entry_ops env s.files e)) rest =
        file_ops env s.files rest :=
      file_ops_congr env _ _ rest hagree
    have hsafe_rest : ∀ op ∈ file_ops env
          (applyOps s.files (file_entry_ops env s.files e)) rest,
        ∀ q ∈ reads_list rest, covers op q = false := by
      intro op hop q hq
      rw [hcong] at hop
      exact hsafe op (hsub_op_rest op hop) q (hsub_rd_rest q hq)
    have hrec := ih { s with files := applyOps s.files (file_entry_ops env s.files e) }
    show (thread (restore_file_backup env) (restore_file_backup env s e).2 rest).2 = _
    rw [hstep]
    rw [hrec hsafe_rest]
    rw [hcong]
    simp only [file_ops, List.flatMap_cons]
    rw [applyOps_append]

/-- The registry import a `_restore_registry_backup` call performs —
which key the referenced `.reg` blob merges back, with which values —
extracted against the file view `fs0` of its blob read. -/
def reg_entry_op (env : Env) (fs0 : List (String × FileData)) (e : JVal) :
    Option ((String × String) × List (String × String)) :=
  match e with
  | JVal.obj m =>
    match aget m "backup_path" with
    | some (JVal.s p) =>
      if p = "" then none
      else
        match aget fs0 p with
        | some (FileData.regBlob key vals) =>
          if env.reg_import_ok p then some (key, vals) else none
        | _ => none
    | _ => none
  | _ => none

/-- The registry imports of a whole registry section. -/
def reg_ops (env : Env) (fs0 : List (String × FileData)) (l : List JVal) :
    List ((String × String) × List (String × String)) :=
  l.filterMap (reg_entry_op env fs0)

/-- Apply a sequence of registry imports in order. -/
def applyROps (r : List ((String × String) × List (String × String)))
    (ops : List ((String × String) × List (String × String))) :
    List ((String × String) × List (String × String)) :=
  ops.foldl (fun acc op => reg_import acc op.1 op.2) r

/-- One registry entry performs exactly its extracted import on the
registry and touches nothing else. -/
theorem restore_registry_backup_op (env : Env) (s : SysState) (e : JVal) :
    (restore_registry_backup env s e).2 =
      match reg_entry_op env s.files e with
      | some op => { s with reg := reg_import s.reg op.1 op.2 }
      | none => s := by
  cases e with
  | s v => rfl
  | list l => rfl
  | obj m =>
    rcases hbp : aget m "backup_path" with _ | v
    · simp [restore_registry_backup, reg_entry_op, hbp]
    · cases v with
      | list l => simp [restore_registry_backup, reg_entry_op, hbp]
      | obj m2 => simp [restore_registry_backup, reg_entry_op, hbp]
      | s p =>
        by_cases hp : p = ""
        · simp [restore_registry_backup, reg_entry_op, hbp, hp]
        · rcases hblob : aget s.files p with _ | c
          · simp [restore_registry_backup, reg_entry_op, restore_from_backup, hbp, hp, hblob]
          · rcases c with bc | ⟨key, vals⟩ | entries
            · simp [restore_registry_backup, reg_entry_op, restore_from_backup, hbp, hp, hblob]
            · by_cases hi : env.reg_import_ok p <;>
                simp [restore_registry_backup, reg_entry_op, restore_from_backup, hbp, hp,
                  hblob, hi]
            · simp [restore_registry_backup, reg_entry_op, restore_from_backup, hbp, hp, hblob]

/-- The whole registry section performs exactly its extracted imports on
the registry and touches nothing else (its reads are file reads, which
registry imports never change). -/
theorem reg_section_ops (env : Env) (l : List JVal) (s : SysState) :
    (thread (restore_registry_backup env) s l).2 =
      { s with reg := applyROps s.reg (reg_ops env s.files l) } := by
  induction l generalizing s with
  | nil => simp [thread, reg_ops, applyROps]
  | cons e rest ih =>
    show (thread (restore_registry_backup env) (restore_registry_backup env s e).2 rest).2 = _
    rw [restore_registry_backup_op]
    rcases hop : reg_entry_op env s.files e with _ | op
    · rw [ih s]
      simp [reg_ops, List.filterMap_cons, hop]
    · rw [ih { s with reg := reg_import s.reg op.1 op.2 }]
      simp [reg_ops, List.filterMap_cons, hop, applyROps]

/-- Registry extraction only reads the entry's blob path. -/
theorem reg_ops_congr (env : Env) (fs1 fs0 : List (String × FileData)) (l : List JVal)
    (hagree : ∀ q ∈ l.filterMap entry_blob, aget fs1 q = aget fs0 q) :
    reg_ops env fs1 l = reg_ops env fs0 l := by
  induction l with
  | nil => rfl
  | cons e rest ih =>
    have hrest : reg_ops env fs1 rest = reg_ops env fs0 rest :=
      ih fun q hq => hagree q (by
        rcases hb : entry_blob e with _ | p
        · simpa [List.filterMap_cons, hb] using hq
        · simp only [List.filterMap_cons, hb]
          exact List.mem_cons_of_mem p hq)
    have hhead : reg_entry_op env fs1 e = reg_entry_op env fs0 e := by
      cases e with
      | s v => rfl
      | list l2 => rfl
      | obj m =>
        rcases hbp : aget m "backup_path" with _ | v
        · simp [reg_entry_op, hbp]
        · cases v with
          | list l2 => simp [reg_entry_op, hbp]
          | obj m2 => simp [reg_entry_op, hbp]
          | s p =>
            by_cases hp : p = ""
            · simp [reg_entry_op, hbp, hp]
            · have hq : aget fs1 p = aget fs0 p := by
                apply hagree
                simp [List.filterMap_cons, entry_blob, hbp]
              simp [reg_entry_op, hbp, hp, hq]
    simp [reg_ops, List.filterMap_cons] at hrest ⊢
    rw [hhead, hrest]

/-- The last-written value of a value list for one value name. -/
def last_val : List (String × String) → String → Option String
  | [], _ => none
  | kv :: rest, n =>
    match last_val rest n with
    | some v => some v
    | none => if n = kv.1 then some kv.2 else none

/-- Merging a value list into a key's current values (`reg import`). -/
def merge_vals (w : List (String × String)) (vals : List (String × String)) :
    List (String × String) :=
  vals.foldl (fun acc kv => aset acc kv.1 kv.2) w

/-- A merged value is the last value the blob writes for that name, or
the current one. -/
theorem aget_merge_vals (vals w : List (String × String)) (n : String) :
    aget (merge_vals w vals) n =
      match last_val vals n with
      | some v => some v
      | none => aget w n := by
  induction vals generalizing w with
  | nil => simp [merge_vals, last_val]
  | cons kv rest ih =>
    show aget (merge_vals (aset w kv.1 kv.2) rest) n = _
    rw [ih]
    rcases hl : last_val rest n with _ | v
    · simp only [last_val, hl, aget_aset]
      by_cases hn : n = kv.1 <;> simp [hn]
    · simp [last_val, hl]

/-- The value lists a sequence of imports merges into one key. -/
def rops_for (ops : List ((String × String) × List (String × String)))
    (k : String × String) : List (List (String × String)) :=
  ops.filterMap fun op => if op.1 = k then some op.2 else none

/-- Merge a sequence of value lists into a key's current values. -/
def merge_chain (w : List (String × String)) (vs : List (List (String × String))) :
    List (String × String) :=
  vs.foldl merge_vals w

/-- Effect of a sequence of merges on one key's (optional) value list. -/
def apply_rkey (x : Option (List (String × String)))
    (vs : List (List (String × String))) : Option (List (String × String)) :=
  match vs with
  | [] => x
  | _ :: _ => some (merge_chain (x.getD []) vs)

/-- Peeling one merge off `apply_rkey`. -/
theorem apply_rkey_cons (x : Option (List (String × String)))
    (v : List (String × String)) (vs : List (List (String × String))) :
    apply_rkey x (v :: vs) = apply_rkey (some (merge_vals (x.getD []) v)) vs := by
  cases vs <;> simp [apply_rkey, merge_chain]

/-- The registry after a sequence of imports, one key at a time. -/
theorem aget_applyROps (ops : List ((String × String) × List (String × String)))
    (r : List ((String × String) × List (String × String))) (k : String × String) :
    aget (applyROps r ops) k = apply_rkey (aget r k) (rops_for ops k) := by
  induction ops generalizing r with
  | nil => simp [applyROps, rops_for, apply_rkey]
  | cons op rest ih =>
    show aget (applyROps (reg_import r op.1 op.2) rest) k = _
    rw [ih]
    by_cases hk : op.1 = k
    · subst hk
      have h1 : aget (reg_import r op.1 op.2) op.1 =
          some (merge_vals ((aget r op.1).getD []) op.2) := by
        simp [reg_import, aget_aset, merge_vals]
      rw [h1]
      have h2 : rops_for (op :: rest) op.1 = op.2 :: rops_for rest op.1 := by
        simp [rops_for, List.filterMap_cons]
      rw [h2, apply_rkey_cons]
    · have hk2 : ¬(k = op.1) := fun e => hk e.symm
      have h1 : aget (reg_import r op.1 op.2) k = aget r k := by
        simp [reg_import, aget_aset, hk2]
      have h2 : rops_for (op :: rest) k = rops_for rest k := by
        simp [rops_for, List.filterMap_cons, hk]
      rw [h1, h2]

/-- The last value any of the merged lists writes for one name. -/
def chain_last (vs : List (List (String × String))) (n : String) : Option String :=
  match vs with
  | [] => none
  | v :: rest =>
    match chain_last rest n with
    | some x => some x
    | none => last_val v n

/-- A chained merge writes the last value of the chain for each name. -/
theorem aget_merge_chain (vs : List (List (String × String)))
    (w : List (String × String)) (n : String) :
    aget (merge_chain w vs) n =
      match chain_last vs n with
      | some v => some v
      | none => aget w n := by
  induction vs generalizing w with
  | nil => simp [merge_chain, chain_last]
  | cons v rest ih =>
    show aget (merge_chain (merge_vals w v) rest) n = _
    rw [ih]
    rcases hl : chain_last rest n with _ | x
    · simp only [chain_last, hl, aget_merge_vals]
    · simp [chain_last, hl]

/-- Re-running the merges of one key leaves each value unchanged. -/
theorem apply_rkey_replay_val (x : Option (List (String × String)))
    (vs : List (List (String × String))) (n : String) :
    aget ((apply_rkey (apply_rkey x vs) vs).getD []) n =
      aget ((apply_rkey x vs).getD []) n := by
  cases vs with
  | nil => rfl
  | cons v rest =>
    simp only [apply_rkey, Option.getD_some]
    rw [aget_merge_chain]
    rcases hc : chain_last (v :: rest) n with _ | y
    · rfl
    · rw [aget_merge_chain, hc]

/-- Re-running the merges of one key preserves the key's existence. -/
theorem apply_rkey_replay_presence (x : Option (List (String × String)))
    (vs : List (List (String × String))) :
    (apply_rkey (apply_rkey x vs) vs).isSome = (apply_rkey x vs).isSome := by
  cases vs <;> simp [apply_rkey]

/-- Replaying the same import sequence changes no registry value. -/
theorem applyROps_replay_val (r ops : List ((String × String) × List (String × String)))
    (k : String × String) (n : String) :
    aget ((aget (applyROps (applyROps r ops) ops) k).getD []) n =
      aget ((aget (applyROps r ops) k).getD []) n := by
  rw [aget_applyROps, aget_applyROps]
  exact apply_rkey_replay_val (aget r k) (rops_for ops k) n

/-- Replaying the same import sequence creates or deletes no key. -/
theorem applyROps_replay_presence
    (r ops : List ((String × String) × List (String × String))) (k : String × String) :
    (aget (applyROps (applyROps r ops) ops) k).isSome =
      (aget (applyROps r ops) k).isSome := by
  rw [aget_applyROps, aget_applyROps]
  exact apply_rkey_replay_presence (aget r k) (rops_for ops k)

/-- The run state a recorded service snapshot drives the service toward
(`None`: the snapshot asks for no action). -/
def svc_target : JVal → Option ServiceState
  | JVal.obj m =>
    match aget m "state" with
    | some (JVal.s v) =>
      if v = "RUNNING" then some ServiceState.RUNNING
      else if v = "STOPPED" then some ServiceState.STOPPED
      else none
    | _ => none
  | _ => none

/-- Effect of restoring one service snapshot on the service-state map. -/
def svc_step1 (env : Env) (sv : List (String × ServiceState)) (p : String × JVal) :
    List (String × ServiceState) :=
  match svc_target p.2 with
  | some ServiceState.RUNNING =>
    if (aget sv p.1).getD ServiceState.UNKNOWN = ServiceState.RUNNING then sv
    else if env.net_start_ok p.1 then aset sv p.1 ServiceState.RUNNING else sv
  | some ServiceState.STOPPED =>
    if (aget sv p.1).getD ServiceState.UNKNOWN = ServiceState.STOPPED then sv
    else if env.net_stop_ok p.1 then aset sv p.1 ServiceState.STOPPED else sv
  | _ => sv

/-- Effect of the whole service section on the service-state map. -/
def svc_apply (env : Env) (sv : List (String × ServiceState))
    (m : List (String × JVal)) : List (String × ServiceState) :=
  m.foldl (svc_step1 env) sv

/-- One service restore changes exactly the service map, by its step. -/
theorem restore_service_state_step (env : Env) (s : SysState) (name : String) (d : JVal) :
    (restore_service_state env s name d).2 =
      { s with services := svc_step1 env s.services (name, d) } := by
  cases d with
  | s v => rfl
  | list l => rfl
  | obj m =>
    rcases hst : aget m "state" with _ | v
    · simp [restore_service_state, svc_step1, svc_target, hst]
    · cases v with
      | list l => simp [restore_service_state, svc_step1, svc_target, hst]
      | obj m2 => simp [restore_service_state, svc_step1, svc_target, hst]
      | s v =>
        by_cases hr : v = "RUNNING"
        · subst hr
          simp only [restore_service_state, hst, if_pos, start_service, get_service_status,
            svc_step1, svc_target]
          by_cases h1 : (aget s.services name).getD ServiceState.UNKNOWN = ServiceState.RUNNING
          · simp [h1]
          · by_cases h2 : env.net_start_ok name <;> simp [h1, h2]
        · by_cases hs2 : v = "STOPPED"
          · subst hs2
            simp only [restore_service_state, hst, hr, if_false, if_pos, stop_service,
              get_service_status, svc_step1, svc_target]
            by_cases h1 : (aget s.services name).getD ServiceState.UNKNOWN = ServiceState.STOPPED
            · simp [h1]
            · by_cases h2 : env.net_stop_ok name <;> simp [hr, h1, h2]
          · simp [restore_service_state, hst, hr, hs2, svc_step1, svc_target]

/-- The whole service section changes exactly the service map, by its
fold of steps. -/
theorem svc_section_apply (env : Env) (m : List (String × JVal)) (s : SysState) :
    (thread (fun st p => restore_service_state env st p.1 p.2) s m).2 =
      { s with services := svc_apply env s.services m } := by
  induction m generalizing s with
  | nil => simp [thread, svc_apply]
  | cons p rest ih =>
    show (thread _ (restore_service_state env s p.1 p.2).2 rest).2 = _
    rw [restore_service_state_step]
    rw [ih]
    simp [svc_apply]

/-- Pointwise effect of one service step on the service map. -/
def svc_res (env : Env) (name : String) (d : JVal) (x : Option ServiceState) :
    Option ServiceState :=
  match svc_target d with
  | some ServiceState.RUNNING =>
    if x.getD ServiceState.UNKNOWN = ServiceState.RUNNING then x
    else if env.net_start_ok name then some ServiceState.RUNNING else x
  | some ServiceState.STOPPED =>
    if x.getD ServiceState.UNKNOWN = ServiceState.STOPPED then x
    else if env.net_stop_ok name then some ServiceState.STOPPED else x
  | _ => x

/-- A service step only touches its own service. -/
theorem aget_svc_step1 (env : Env) (sv : List (String × ServiceState))
    (p : String × JVal) (n : String) :
    aget (svc_step1 env sv p) n =
      if n = p.1 then svc_res env p.1 p.2 (aget sv p.1) else aget sv n := by
  unfold svc_step1 svc_res
  rcases ht : svc_target p.2 with _ | t
  · by_cases hn : n = p.1 <;> simp [hn]
  · cases t with
    | RUNNING =>
      by_cases h1 : (aget sv p.1).getD ServiceState.UNKNOWN = ServiceState.RUNNING
      · by_cases hn : n = p.1 <;> simp [h1, hn]
      · by_cases h2 : env.net_start_ok p.1
        · by_cases hn : n = p.1 <;> simp [h1, h2, hn, aget_aset]
        · by_cases hn : n = p.1 <;> simp [h1, h2, hn]
    | STOPPED =>
      by_cases h1 : (aget sv p.1).getD ServiceState.UNKNOWN = ServiceState.STOPPED
      · by_cases hn : n = p.1 <;> simp [h1, hn]
      · by_cases h2 : env.net_stop_ok p.1
        · by_cases hn : n = p.1 <;> simp [h1, h2, hn, aget_aset]
        · by_cases hn : n = p.1 <;> simp [h1, h2, hn]
    | PAUSED => by_cases hn : n = p.1 <;> simp [hn]
    | UNKNOWN => by_cases hn : n = p.1 <;> simp [hn]

/-- Driving a service a second time toward the same target changes
nothing. -/
theorem svc_res_stable (env : Env) (name : String) (d : JVal) (x : Option ServiceState) :
    svc_res env name d (svc_res env name d x) = svc_res env name d x := by
  unfold svc_res
  rcases svc_target d with _ | t
  · rfl
  · cases t with
    | RUNNING =>
      by_cases h1 : x.getD ServiceState.UNKNOWN = ServiceState.RUNNING
      · simp [h1]
      · by_cases h2 : env.net_start_ok name <;> simp [h1, h2]
    | STOPPED =>
      by_cases h1 : x.getD ServiceState.UNKNOWN = ServiceState.STOPPED
      · simp [h1]
      · by_cases h2 : env.net_stop_ok name <;> simp [h1, h2]
    | PAUSED => rfl
    | UNKNOWN => rfl

/-- A service not named by any pair of the section is untouched. -/
theorem aget_svc_apply_not_mem (env : Env) (m : List (String × JVal))
    (sv : List (String × ServiceState)) (n : String) (h : ∀ p ∈ m, p.1 ≠ n) :
    aget (svc_apply env sv m) n = aget sv n := by
  induction m generalizing sv with
  | nil => rfl
  | cons p rest ih =>
    show aget (svc_apply env (svc_step1 env sv p) rest) n = _
    rw [ih _ fun q hq => h q (by simp [hq])]
    rw [aget_svc_step1]
    have hpn := h p (by simp)
    rw [if_neg fun e => hpn e.symm]

/-- The service fold only reads the map pointwise. -/
theorem svc_apply_congr (env : Env) (m : List (String × JVal))
    (sv1 sv2 : List (String × ServiceState))
    (h : ∀ n, aget sv1 n = aget sv2 n) (n : String) :
    aget (svc_apply env sv1 m) n = aget (svc_apply env sv2 m) n := by
  induction m generalizing sv1 sv2 with
  | nil => exact h n
  | cons p rest ih =>
    show aget (svc_apply env (svc_step1 env sv1 p) rest) n = _
    refine ih (svc_step1 env sv1 p) (svc_step1 env sv2 p) ?_
    intro q
    rw [aget_svc_step1, aget_svc_step1, h p.1, h q]

/-- Re-running the service section on any state that pointwise equals
its own output reproduces that output (unique keys). -/
theorem svc_apply_replay_aux (env : Env) (m : List (String × JVal))
    (hnd : (m.map Prod.fst).Nodup) :
    ∀ sv sv' : List (String × ServiceState),
      (∀ n, aget sv' n = aget (svc_apply env sv m) n) →
      ∀ n, aget (svc_apply env sv' m) n = aget (svc_apply env sv m) n := by
  induction m with
  | nil =>
    intro sv sv' hp n
    exact hp n
  | cons p rest ih =>
    intro sv sv' hp n
    have hnotin : ∀ q ∈ rest, q.1 ≠ p.1 := by
      intro q hq he
      have : p.1 ∈ rest.map Prod.fst := List.mem_map.mpr ⟨q, hq, he⟩
      simp only [List.map_cons, List.nodup_cons] at hnd
      exact hnd.1 this
    have hnd2 : (rest.map Prod.fst).Nodup := by
      simp only [List.map_cons, List.nodup_cons] at hnd
      exact hnd.2
    show aget (svc_apply env (svc_step1 env sv' p) rest) n =
      aget (svc_apply env (svc_step1 env sv p) rest) n
    refine ih hnd2 (svc_step1 env sv p) (svc_step1 env sv' p) ?_ n
    intro q
    by_cases hq : q = p.1
    · subst hq
      rw [aget_svc_step1, if_pos rfl]
      have hRHS : aget (svc_apply env (svc_step1 env sv p) rest) p.1 =
          svc_res env p.1 p.2 (aget sv p.1) := by
        rw [aget_svc_apply_not_mem env rest _ p.1 hnotin, aget_svc_step1, if_pos rfl]
      rw [hRHS]
      have hsv2 : aget sv' p.1 = svc_res env p.1 p.2 (aget sv p.1) := by
        rw [hp p.1]
        show aget (svc_apply env (svc_step1 env sv p) rest) p.1 = _
        exact hRHS
      rw [hsv2, svc_res_stable]
    · rw [aget_svc_step1, if_neg hq, hp q]
      rfl

/-- Re-running the whole service section changes no service state. -/
theorem svc_apply_replay (env : Env) (m : List (String × JVal))
    (sv : List (String × ServiceState)) (hnd : (m.map Prod.fst).Nodup) (n : String) :
    aget (svc_apply env (svc_apply env sv m) m) n = aget (svc_apply env sv m) n :=
  svc_apply_replay_aux env m hnd sv (svc_apply env sv m) (fun _ => rfl) n

/-- The power plan `_restore_power_plan` activates given whether the
captured output mentions Ultimate Performance, falling through to the
current plan when both `powercfg` attempts fail. -/
def power_res (env : Env) (mention : Bool) (x : String) : String :=
  if mention && env.powercfg_ok ultimate_guid then ultimate_guid
  else if env.powercfg_ok high_perf_guid then high_perf_guid
  else x

/-- Effect of the whole power section on the active plan. -/
def power_apply (env : Env) (info : JObj) (x : String) : String :=
  if otruthy (aget info "power_settings") then
    match (aget info "power_settings").getD (JVal.obj []) with
    | JVal.obj m => power_res env (mentions_ultimate (aget m "output")) x
    | _ => x
  else x

/-- The power section changes exactly the active plan, by `power_apply`. -/
theorem power_section_step_state (env : Env) (info : JObj) (s : SysState) :
    (power_section_step env info s).2 =
      { s with power_plan := power_apply env info s.power_plan } := by
  unfold power_section_step power_apply
  by_cases hc : otruthy (aget info "power_settings")
  · simp only [hc, if_true]
    rcases (aget info "power_settings").getD (JVal.obj []) with v | l | m
    · rfl
    · rfl
    · show (restore_power_plan env s (JVal.obj m)).2 = _
      unfold restore_power_plan power_res
      by_cases h1 : mentions_ultimate (aget m "output") && env.powercfg_ok ultimate_guid
      · rw [Bool.and_eq_true] at h1
        simp [h1.1, h1.2]
      · simp only [Bool.and_eq_true] at h1
        by_cases h2 : env.powercfg_ok high_perf_guid <;> simp [h1, h2]
  · simp [hc]

/-- Re-activating the same plan decision changes nothing. -/
theorem power_res_stable (env : Env) (mention : Bool) (x : String) :
    power_res env mention (power_res env mention x) = power_res env mention x := by
  unfold power_res
  by_cases h1 : mention && env.powercfg_ok ultimate_guid
  · simp [h1]
  · by_cases h2 : env.powercfg_ok high_perf_guid <;> simp [h1, h2]

/-- Re-running the power section changes nothing. -/
theorem power_apply_stable (env : Env) (info : JObj) (x : String) :
    power_apply env info (power_apply env info x) = power_apply env info x := by
  unfold power_apply
  by_cases hc : otruthy (aget info "power_settings")
  · simp only [hc, if_true]
    rcases (aget info "power_settings").getD (JVal.obj []) with v | l | m
    · rfl
    · rfl
    · exact power_res_stable env (mentions_ultimate (aget m "output")) x
  · simp [hc]

/-- Whether a recorded startup item reaches `registry.write_value`: it
must be a dict of registry type whose hive name is known and whose
subkey, name and value are all truthy. -/
def startup_writes (e : JVal) : Bool :=
  match e with
  | JVal.obj m =>
    (match aget m "type" with
     | some (JVal.s ty) => ty == "registry"
     | _ => false) &&
    (match aget m "hkey" with
     | some (JVal.s h) =>
       hkey_known h && otruthy (aget m "subkey") && otruthy (aget m "name")
         && otruthy (aget m "value")
     | _ => false)
  | _ => false

/-- An item that does not reach `write_value` is skipped: not counted,
no state change. -/
theorem startup_item_step_skip (env : Env) (t : String) (s : SysState) (e : JVal)
    (h : startup_writes e = false) :
    startup_item_step env t s e = (false, s) := by
  cases e with
  | s v => rfl
  | list l => rfl
  | obj m =>
    rcases hty : aget m "type" with _ | ty
    · simp [startup_item_step, hty]
    · cases ty with
      | list l2 => simp [startup_item_step, hty]
      | obj m2 => simp [startup_item_step, hty]
      | s ty =>
        by_cases hreg : ty = "registry"
        · subst hreg
          rcases hhk : aget m "hkey" with _ | hk
          · simp [startup_item_step, hty, hhk]
          · cases hk with
            | list l2 => simp [startup_item_step, hty, hhk]
            | obj m2 => simp [startup_item_step, hty, hhk]
            | s hname =>
              simp only [startup_writes, hty, hhk, beq_self_eq_true, Bool.true_and] at h
              simp [startup_item_step, hty, hhk, h]
        · simp [startup_item_step, hty, hreg]

/-- A startup section none of whose items reaches `write_value` leaves
the system untouched. -/
theorem startup_section_skip (env : Env) (t : String) (s : SysState) (items : List JVal)
    (h : ∀ e ∈ items, startup_writes e = false) :
    (thread (startup_item_step env t) s items).2 = s := by
  induction items generalizing s with
  | nil => rfl
  | cons e rest ih =>
    show (thread (startup_item_step env t) (startup_item_step env t s e).2 rest).2 = s
    rw [startup_item_step_skip env t s e (h e (by simp))]
    exact ih s fun q hq => h q (by simp [hq])

/-- The entries a restore traverses for one list-valued section (empty
when the section is absent or falsy and therefore skipped). -/
def sec_items (info : JObj) (sec : String) : List JVal :=
  if otruthy (aget info sec) then jitems ((aget info sec).getD (JVal.list [])) else []

/-- The name/snapshot pairs the service section traverses. -/
def svc_items (info : JObj) : List (String × JVal) :=
  match aget info "service_states" with
  | some (JVal.obj m) => if truthy (JVal.obj m) then m else []
  | _ => []

/-- Pointwise equality of two operating-system states: same files, same
registry keys and values, same service run states, same active power
plan. -/
def SysEquiv (a b : SysState) : Prop :=
  (∀ p, aget a.files p = aget b.files p) ∧
    (∀ k, (aget a.reg k).isSome = (aget b.reg k).isSome) ∧
    (∀ k n, aget ((aget a.reg k).getD []) n = aget ((aget b.reg k).getD []) n) ∧
    (∀ n, aget a.services n = aget b.services n) ∧
    a.power_plan = b.power_plan

/-- One full restore traversal, field by field: the registry gets the
section's imports, the file map its operations, the services their
steps, the power plan its decision — provided no startup item reaches a
registry write and the file operations stay clear of every path the
traversal reads. -/
theorem restore_spec_state (env : Env) (t : String) (info : JObj) (s : SysState)
    (hstart : ∀ e ∈ sec_items info "startup_items", startup_writes e = false)
    (hsafe : ∀ op ∈ file_ops env s.files (sec_items info "file_backups"),
      ∀ q ∈ reads_list (sec_items info "file_backups"), covers op q = false) :
    (restore_spec env t info s).2 =
      { files := applyOps s.files (file_ops env s.files (sec_items info "file_backups")),
        reg := applyROps s.reg (reg_ops env s.files (sec_items info "registry_backups")),
        services := svc_apply env s.services (svc_items info),
        power_plan := power_apply env info s.power_plan } := by
  have h1 : (section_thread (restore_registry_backup env) info "registry_backups" s).2 =
      { s with reg := applyROps s.reg (reg_ops env s.files (sec_items info "registry_backups")) } := by
    unfold section_thread
    by_cases hc : otruthy (aget info "registry_backups")
    · have hsi : sec_items info "registry_backups" =
          jitems ((aget info "registry_backups").getD (JVal.list [])) := by
        simp [sec_items, hc]
      simp only [hc, if_true, hsi]
      exact reg_section_ops env _ s
    · have hsi : sec_items info "registry_backups" = [] := by
        simp [sec_items, hc]
      simp [hc, hsi, reg_ops, applyROps]
  have h2 : (section_thread (restore_file_backup env) info "file_backups"
        { s with reg := applyROps s.reg (reg_ops env s.files (sec_items info "registry_backups")) }).2 =
      { s with
        reg := applyROps s.reg (reg_ops env s.files (sec_items info "registry_backups")),
        files := applyOps s.files (file_ops env s.files (sec_items info "file_backups")) } := by
    unfold section_thread
    by_cases hc : otruthy (aget info "file_backups")
    · have hsi : sec_items info "file_backups" =
          jitems ((aget info "file_backups").getD (JVal.list [])) := by
        simp [sec_items, hc]
      simp only [hc, if_true, hsi]
      have hthread := file_section_ops env
        (jitems ((aget info "file_backups").getD (JVal.list [])))
        { s with reg := applyROps s.reg (reg_ops env s.files (sec_items info "registry_backups")) }
        (by
          intro op hop q hq
          refine hsafe op ?_ q ?_
          · rw [hsi]; exact hop
          · rw [hsi]; exact hq)
      rw [hthread]
    · have hsi : sec_items info "file_backups" = [] := by
        simp [sec_items, hc]
      simp [hc, hsi, file_ops, applyOps]
  have h3 : (svc_section_thread env info
        { s with
          reg := applyROps s.reg (reg_ops env s.files (sec_items info "registry_backups")),
          files := applyOps s.files (file_ops env s.files (sec_items info "file_backups")) }).2 =
      { s with
        reg := applyROps s.reg (reg_ops env s.files (sec_items info "registry_backups")),
        files := applyOps s.files (file_ops env s.files (sec_items info "file_backups")),
        services := svc_apply env s.services (svc_items info) } := by
    unfold svc_section_thread
    rcases hs : aget info "service_states" with _ | sv
    · have hsi : svc_items info = [] := by simp [svc_items, hs]
      simp [hs, hsi, svc_apply]
    · cases sv with
      | s v =>
        have hsi : svc_items info = [] := by simp [svc_items, hs]
        simp [hs, hsi, svc_apply]
      | list l =>
        have hsi : svc_items info = [] := by simp [svc_items, hs]
        simp [hs, hsi, svc_apply]
      | obj m =>
        by_cases ht : truthy (JVal.obj m)
        · have hsi : svc_items info = m := by simp [svc_items, hs, ht]
          simp only [hs, ht, if_true, hsi]
          exact svc_section_apply env m _
        · have hsi : svc_items info = [] := by simp [svc_items, hs, ht]
          simp [hs, ht, hsi, svc_apply]
  have h4 : (power_section_step env info
        { s with
          reg := applyROps s.reg (reg_ops env s.files (sec_items info "registry_backups")),
          files := applyOps s.files (file_ops env s.files (sec_items info "file_backups")),
          services := svc_apply env s.services (svc_items info) }).2 =
      { files := applyOps s.files (file_ops env s.files (sec_items info "file_backups")),
        reg := applyROps s.reg (reg_ops env s.files (sec_items info "registry_backups")),
        services := svc_apply env s.services (svc_items info),
        power_plan := power_apply env info s.power_plan } := by
    rw [power_section_step_state]
  show (restore_spec env t info s).2 = _
  unfold restore_spec
  simp only []
  rw [h1, h2, h3, h4]
  by_cases hu : otruthy (aget info "startup_items")
  · simp only [hu, if_true]
    exact startup_section_skip env t _ _ (by
      intro e he
      exact hstart e (by simpa [sec_items, hu] using he))
  · simp [hu]

/-- The directory destinations of a document's `directory_zip` file
entries. -/
def section_dir_dests (info : JObj) : List String :=
  (jitems ((aget info "file_backups").getD (JVal.list []))).filterMap entry_dir_dest

/-- Every path a restore of the document consults: the blobs referenced
from the registry and file sections, plus the directory destinations. -/
def protected_paths (info : JObj) : List String :=
  referenced_blob_paths info ++ section_dir_dests info

/-- The file section's reads all lie inside the protected paths. -/
theorem reads_subset_protected (info : JObj) :
    ∀ q ∈ reads_list (sec_items info "file_backups"), q ∈ protected_paths info := by
  intro q hq
  by_cases hc : otruthy (aget info "file_backups")
  · rw [sec_items, if_pos hc] at hq
    simp only [reads_list, List.mem_flatMap] at hq
    obtain ⟨e, he, hqe⟩ := hq
    simp only [entry_reads, List.mem_append] at hqe
    rcases hqe with hb | hd
    · have hbe : entry_blob e = some q := by
        rcases hx : entry_blob e with _ | p
        · simp [hx] at hb
        · simp [hx] at hb
          simp [hx, hb]
      have : q ∈ section_blob_paths info "file_backups" :=
        List.mem_filterMap.mpr ⟨e, he, hbe⟩
      simp only [protected_paths, referenced_blob_paths, List.mem_append]
      exact Or.inl (Or.inr this)
    · have hde : entry_dir_dest e = some q := by
        rcases hx : entry_dir_dest e with _ | p
        · simp [hx] at hd
        · simp [hx] at hd
          simp [hx, hd]
      have : q ∈ section_dir_dests info :=
        List.mem_filterMap.mpr ⟨e, he, hde⟩
      simp only [protected_paths, List.mem_append]
      exact Or.inr this
  · rw [sec_items, if_neg hc] at hq
    simp [reads_list] at hq

/-- The registry section's blob reads all lie inside the protected
paths. -/
theorem regblobs_subset_protected (info : JObj) :
    ∀ q ∈ (sec_items info "registry_backups").filterMap entry_blob,
      q ∈ protected_paths info := by
  intro q hq
  by_cases hc : otruthy (aget info "registry_backups")
  · rw [sec_items, if_pos hc] at hq
    have : q ∈ section_blob_paths info "registry_backups" := hq
    simp only [protected_paths, referenced_blob_paths, List.mem_append]
    exact Or.inl (Or.inl this)
  · rw [sec_items, if_neg hc] at hq
    simp at hq

/-- The state one restore traversal leaves behind, field by field. -/
def one_pass (env : Env) (info : JObj) (s : SysState) : SysState :=
  { files := applyOps s.files (file_ops env s.files (sec_items info "file_backups")),
    reg := applyROps s.reg (reg_ops env s.files (sec_items info "registry_backups")),
    services := svc_apply env s.services (svc_items info),
    power_plan := power_apply env info s.power_plan }

/-- `restore_spec_state` restated through `one_pass`. -/
theorem spec_state_one_pass (env : Env) (t : String) (info : JObj) (s : SysState)
    (hstart : ∀ e ∈ sec_items info "startup_items", startup_writes e = false)
    (hsafe : ∀ op ∈ file_ops env s.files (sec_items info "file_backups"),
      ∀ q ∈ reads_list (sec_items info "file_backups"), covers op q = false) :
    (restore_spec env t info s).2 = one_pass env info s := by
  rw [restore_spec_state env t info s hstart hsafe]
  rfl

/-- Running the traversal a second time on its own output reproduces
that output pointwise. -/
theorem one_pass_replay (env : Env) (info : JObj) (st : SysState)
    (hnd : ((svc_items info).map Prod.fst).Nodup)
    (hprot : ∀ op ∈ file_ops env st.files (sec_items info "file_backups"),
      ∀ q ∈ protected_paths info, covers op q = false) :
    SysEquiv (one_pass env info (one_pass env info st)) (one_pass env info st) := by
  have hagree : ∀ q ∈ protected_paths info,
      aget (one_pass env info st).files q = aget st.files q := by
    intro q hq
    show aget (applyOps st.files (file_ops env st.files (sec_items info "file_backups"))) q = _
    exact aget_applyOps_of_not_covered _ _ _ fun op hop => hprot op hop q hq
  have hops_eq : file_ops env (one_pass env info st).files (sec_items info "file_backups") =
      file_ops env st.files (sec_items info "file_backups") :=
    file_ops_congr env _ _ _ fun q hq => hagree q (reads_subset_protected info q hq)
  have hrops_eq : reg_ops env (one_pass env info st).files (sec_items info "registry_backups") =
      reg_ops env st.files (sec_items info "registry_backups") :=
    reg_ops_congr env _ _ _ fun q hq => hagree q (regblobs_subset_protected info q hq)
  refine ⟨?_, ?_, ?_, ?_, ?_⟩
  · intro p
    show aget (applyOps (one_pass env info st).files
      (file_ops env (one_pass env info st).files (sec_items info "file_backups"))) p = _
    rw [hops_eq]
    exact applyOps_replay (file_ops env st.files (sec_items info "file_backups")) st.files p
  · intro k
    show (aget (applyROps (one_pass env info st).reg
      (reg_ops env (one_pass env info st).files (sec_items info "registry_backups"))) k).isSome = _
    rw [hrops_eq]
    exact applyROps_replay_presence st.reg
      (reg_ops env st.files (sec_items info "registry_backups")) k
  · intro k n
    show aget ((aget (applyROps (one_pass env info st).reg
      (reg_ops env (one_pass env info st).files (sec_items info "registry_backups"))) k).getD []) n = _
    rw [hrops_eq]
    exact applyROps_replay_val st.reg
      (reg_ops env st.files (sec_items info "registry_backups")) k n
  · intro n
    show aget (svc_apply env (one_pass env info st).services (svc_items info)) n = _
    exact svc_apply_replay env (svc_items info) st.services hnd n
  · show power_apply env info (one_pass env info st).power_plan = _
    exact power_apply_stable env info st.power_plan

/-- A ledger document whose first file entry restores onto a path that
is itself the blob another traversal step reads: the second entry
overwrites the first entry's blob. -/
def c8x_doc : JObj :=
  [("file_backups", JVal.list
    [JVal.obj [("original_path", JVal.s "C:\\target.txt"),
               ("backup_path", JVal.s "C:\\blob1"), ("description", JVal.s "")],
     JVal.obj [("original_path", JVal.s "C:\\blob1"),
               ("backup_path", JVal.s "C:\\blob2"), ("description", JVal.s "")]])]

/-- A live system holding the two blobs `c8x_doc` references, with
different contents. -/
def c8x_sys : SysState :=
  { files := [("C:\\blob1", FileData.bytes "one"), ("C:\\blob2", FileData.bytes "two")],
    reg := [], services := [], power_plan := "p" }

/-- Refutation of C8 as stated: when a file entry's destination is a
blob path another entry reads, the first pass rewrites that blob, so
the second pass copies different bytes — restoring twice is not the
same as restoring once. -/
theorem claim_c8_counterexample :
    aget (restore_operation env0 "t1" [("b", c8x_doc)] c8x_sys "b").2.files
        "C:\\target.txt" = some (FileData.bytes "one") ∧
      aget (restore_operation env0 "t2" [("b", c8x_doc)]
          (restore_operation env0 "t1" [("b", c8x_doc)] c8x_sys "b").2 "b").2.files
          "C:\\target.txt" = some (FileData.bytes "two") ∧
      ¬ SysEquiv
        (restore_operation env0 "t2" [("b", c8x_doc)]
          (restore_operation env0 "t1" [("b", c8x_doc)] c8x_sys "b").2 "b").2
        (restore_operation env0 "t1" [("b", c8x_doc)] c8x_sys "b").2 := by
  refine ⟨rfl, rfl, fun h => ?_⟩
  have h1 := h.1 "C:\\target.txt"
  rw [show aget (restore_operation env0 "t2" [("b", c8x_doc)]
        (restore_operation env0 "t1" [("b", c8x_doc)] c8x_sys "b").2 "b").2.files
        "C:\\target.txt" = some (FileData.bytes "two") from rfl,
      show aget (restore_operation env0 "t1" [("b", c8x_doc)] c8x_sys "b").2.files
        "C:\\target.txt" = some (FileData.bytes "one") from rfl] at h1
  injection h1 with h2
  injection h2 with h3
  exact absurd h3 (by decide)

/-- Claim C8 as amended: for a backup whose ledger record exists and has
the shape the engine writes — dict-shaped service section with unique
keys, startup items stored as nested lists so none reaches a registry
write — and whose file-restore operations stay clear of every blob and
directory path the traversal consults, restoring twice in immediate
succession leaves the live system (files, registry keys and values,
service run states, active power plan) pointwise identical to restoring
once. -/
theorem claim_c8 (env : Env) (t1 t2 : String) (L : Ledger) (st : SysState) (bid : String)
    (info : JObj) (h : get_backup_info L bid = some info) (hne : info.isEmpty = false)
    (hsvc : ∀ v, aget info "service_states" = some v → truthy v = true →
      ∃ m, v = JVal.obj m ∧ (m.map Prod.fst).Nodup)
    (hstart : ∀ e ∈ sec_items info "startup_items", startup_writes e = false)
    (hprot : ∀ op ∈ file_ops env st.files (sec_items info "file_backups"),
      ∀ q ∈ protected_paths info, covers op q = false) :
    SysEquiv (restore_operation env t2 L (restore_operation env t1 L st bid).2 bid).2
      (restore_operation env t1 L st bid).2 := by
  have hsvc1 : ∀ v, aget info "service_states" = some v → truthy v = true →
      ∃ m, v = JVal.obj m :=
    fun v hv ht => (hsvc v hv ht).imp fun m hm => hm.1
  have hnd : ((svc_items info).map Prod.fst).Nodup := by
    unfold svc_items
    rcases hs : aget info "service_states" with _ | sv
    · simp
    · cases sv with
      | s v => simp
      | list l => simp
      | obj m =>
        by_cases ht : truthy (JVal.obj m)
        · obtain ⟨m2, hm2, hnd2⟩ := hsvc (JVal.obj m) hs ht
          cases hm2
          simp [ht, hnd2]
        · simp [ht]
  have hsafe1 : ∀ op ∈ file_ops env st.files (sec_items info "file_backups"),
      ∀ q ∈ reads_list (sec_items info "file_backups"), covers op q = false :=
    fun op hop q hq => hprot op hop q (reads_subset_protected info q hq)
  have e1 : (restore_operation env t1 L st bid).2 = one_pass env info st := by
    rw [restore_eq_spec env t1 L st bid info h hne hsvc1]
    exact spec_state_one_pass env t1 info st hstart hsafe1
  have hagree : ∀ q ∈ protected_paths info,
      aget (one_pass env info st).files q = aget st.files q := by
    intro q hq
    show aget (applyOps st.files (file_ops env st.files (sec_items info "file_backups"))) q = _
    exact aget_applyOps_of_not_covered _ _ _ fun op hop => hprot op hop q hq
  have hops_eq : file_ops env (one_pass env info st).files (sec_items info "file_backups") =
      file_ops env st.files (sec_items info "file_backups") :=
    file_ops_congr env _ _ _ fun q hq => hagree q (reads_subset_protected info q hq)
  have hsafe2 : ∀ op ∈ file_ops env (one_pass env info st).files (sec_items info "file_backups"),
      ∀ q ∈ reads_list (sec_items info "file_backups"), covers op q = false := by
    intro op hop q hq
    rw [hops_eq] at hop
    exact hsafe1 op hop q hq
  have e2 : (restore_operation env t2 L (one_pass env info st) bid).2 =
      one_pass env info (one_pass env info st) := by
    rw [restore_eq_spec env t2 L (one_pass env info st) bid info h hne hsvc1]
    exact spec_state_one_pass env t2 info (one_pass env info st) hstart hsafe2
  rw [e1, e2]
  exact one_pass_replay env info st hnd hprot

/-- An engine-shaped ledger document covering all five sections (the
startup items nested, as `backup_startup_items` writes them). -/
def c8_info : JObj :=
  [("operation", JVal.s "demo"), ("timestamp", JVal.s "t0"), ("backup_id", JVal.s "demo_1"),
   ("registry_backups", JVal.list
      [JVal.obj [("hkey", JVal.s "HKCU"), ("subkey", JVal.s "Software\\X"),
                 ("backup_path", JVal.s "rb1"), ("description", JVal.s "")]]),
   ("file_backups", JVal.list
      [JVal.obj [("original_path", JVal.s "C:\\a.txt"), ("backup_path", JVal.s "fb1"),
                 ("description", JVal.s "")],
       JVal.obj [("original_path", JVal.s "C:\\dir"), ("backup_path", JVal.s "zb1"),
                 ("type", JVal.s "directory_zip"), ("description", JVal.s "")]]),
   ("service_states", JVal.obj
      [("svcA", JVal.obj [("name", JVal.s "svcA"), ("state", JVal.s "RUNNING"),
                          ("info", JVal.obj [])])]),
   ("power_settings", JVal.obj
      [("output", JVal.s "Ultimate Performance"), ("timestamp", JVal.s "t0")]),
   ("startup_items", JVal.list [JVal.list
      [JVal.obj [("hkey", JVal.s "HKCU"), ("subkey", JVal.s run_key),
                 ("name", JVal.s "App"), ("value", JVal.s "C:\\app.exe"),
                 ("type", JVal.s "registry")]]])]

/-- A live system holding the three blobs `c8_info` references. -/
def c8_sys : SysState :=
  { files := [("rb1", FileData.regBlob ("HKCU", "Software\\X") [("v", "1")]),
              ("fb1", FileData.bytes "hello"),
              ("zb1", FileData.zipBlob [("f1.txt", FileData.bytes "z1")])],
    reg := [],
    services := [("svcA", ServiceState.STOPPED)],
    power_plan := "balanced" }

/-- Concrete instance of C8: restoring the five-section backup twice
leaves the same live state as restoring it once. -/
theorem claim_c8_witness :
    SysEquiv
      (restore_operation env0 "t2" [("demo_1", c8_info)]
        (restore_operation env0 "t1" [("demo_1", c8_info)] c8_sys "demo_1").2 "demo_1").2
      (restore_operation env0 "t1" [("demo_1", c8_info)] c8_sys "demo_1").2 :=
  claim_c8 env0 "t1" "t2" [("demo_1", c8_info)] c8_sys "demo_1" c8_info rfl rfl
    (by
      intro v hv ht
      injection hv with hv2
      exact ⟨_, hv2.symm, by decide⟩)
    (by decide)
    (by decide)

end Neutrons
